import Mathlib

set_option autoImplicit false
set_option linter.unusedVariables false

/-!
Verification of the task-orchestration core of the cybersage pipeline:
the sequential analysis lane (`agent_c_queue/app.py`) and the parallel
worker pool (`agent_b_web/app.py`).  Python dictionaries holding task
records are modelled as association lists with dict semantics
(insert replaces in place, update requires presence); wall-clock
timestamps (`datetime.now()`) are modelled by a natural-number clock
that is bumped at every call; the outcomes of library and network
calls (json decoding, file copying, HTTP submission and polling,
acknowledgment marshaling) are passed in as explicit inputs.
-/

namespace CyberSage

/-- A decoded JSON message body, kept only for audit on the task record. -/
abbrev MsgData := List (String × String)

/-- The consumer's reply to the broker for one delivery. -/
inductive AckAction where
  | ack
  | nackRequeue
deriving DecidableEq, Repr

/-- Dict lookup `tasks_storage.get(task_id)`, generic in the record type
since both stages use the same registry code. -/
def lookupTask {τ : Type} : List (String × τ) → String → Option τ
  | [], _ => none
  | (k, v) :: rest, id => if k = id then some v else lookupTask rest id

/-- Dict insertion `tasks_storage[task_id] = record`: replaces in place if the
key exists, appends otherwise. -/
def insertTask {τ : Type} : List (String × τ) → String → τ → List (String × τ)
  | [], id, t => [(id, t)]
  | (k, v) :: rest, id, t =>
      if k = id then (k, t) :: rest else (k, v) :: insertTask rest id t

/-- In-place field mutation `tasks_storage[task_id][...] = ...`.  A missing
key raises KeyError in Python; claims only exercise the present case, so the
absent case is a no-op here and theorems carry presence hypotheses. -/
def updateTask {τ : Type} : List (String × τ) → String → (τ → τ) → List (String × τ)
  | [], _, _ => []
  | (k, v) :: rest, id, f =>
      if k = id then (k, f v) :: rest else (k, v) :: updateTask rest id f

instance exceptDecEq {ε α : Type} [DecidableEq ε] [DecidableEq α] :
    DecidableEq (Except ε α) := fun x y =>
  match x, y with
  | .ok a, .ok b =>
      if h : a = b then .isTrue (by rw [h]) else .isFalse (by simp [h])
  | .error a, .error b =>
      if h : a = b then .isTrue (by rw [h]) else .isFalse (by simp [h])
  | .ok _, .error _ => .isFalse (by simp)
  | .error _, .ok _ => .isFalse (by simp)

namespace AgentC

/-- Task statuses of the sequential lane (agent_c_queue). -/
inductive Status where
  | queued
  | processing
  | waitingForAgentC
  | completed
  | failed
deriving DecidableEq, Repr

/-- Terminal statuses: the task record is meant to stop changing here. -/
def Status.isTerminal : Status → Bool
  | .completed => true
  | .failed => true
  | _ => false

/-- The string stored in the Python dict for each status value. -/
def Status.toStr : Status → String
  | .queued => "queued"
  | .processing => "processing"
  | .waitingForAgentC => "waiting_for_agent_c"
  | .completed => "completed"
  | .failed => "failed"

/-- One task record of the sequential lane, mirroring the dict created in
`on_message` of agent_c_queue/app.py. -/
structure Task where
  task_id : String
  status : Status
  created_at : Nat
  started_at : Option Nat := none
  completed_at : Option Nat := none
  message_data : Option MsgData := none
  file_count : Option Nat := none
  processed_files : Option (List String) := none
  agent_c_task_id : Option String := none
  error : Option String := none
deriving DecidableEq, Repr

/-- The in-memory task registry `tasks_storage` of the sequential lane, as an
association list in dict insertion order. -/
abbrev Registry := List (String × Task)

/-- Glob match for the pattern `*.json` used in `find_cti_files`: fnmatch
semantics, so any name ending in `.json` — `pathlib.Path.glob` does not skip
hidden (dot-prefixed) names. -/
def globMatchesJson (name : String) : Bool :=
  ['.', 'j', 's', 'o', 'n'].isSuffixOf name.data

/-- Artifact discovery: `find_cti_files` globs `*.json` over the directory
listing, despite its docstring advertising the `cti_*_*.json` convention. -/
def find_cti_files (dirListing : List String) : List String :=
  dirListing.filter globMatchesJson

/-- Match against the `cti_*_*.json` naming convention documented in the
module docstring: `cti_`, anything, `_`, anything, `.json`. -/
def ctiConventionMatch (name : String) : Bool :=
  (['c', 't', 'i', '_'].isPrefixOf name.data) &&
    (['.', 'j', 's', 'o', 'n'].isSuffixOf name.data) &&
    (((name.data.drop 4).take (name.data.length - 9)).contains '_')

/-- One observation of the remote status endpoint: either a 2xx body with a
`status` string, or an exception (network failure, non-2xx, bad JSON). -/
inductive PollResponse where
  | ok (status : String)
  | httpError
deriving DecidableEq, Repr

/-- What one loop iteration of `wait_for_agent_c_task` does with a response. -/
inductive PollStep where
  | ret (b : Bool)
  | again
deriving DecidableEq, Repr

/-- The status dispatch of `wait_for_agent_c_task`: `completed` returns True,
`failed` and `not_found` return False, `pending`/`running` sleep and re-poll,
any unknown status also sleeps and re-polls, and a polling exception is
caught, logged, and also leads to sleep and re-poll. -/
def classifyPoll : PollResponse → PollStep
  | .ok s =>
      if s = "completed" then .ret true
      else if s = "failed" then .ret false
      else if s = "not_found" then .ret false
      else if s == "pending" || s == "running" then .again
      else .again
  | .httpError => .again

/-- The polling loop of `wait_for_agent_c_task`.  `elapsed` is the wall-clock
seconds since the loop started (each sleep adds `poll_interval`), `polls`
counts status requests issued so far and indexes the response oracle.  The
fuel argument only bounds recursion depth; `waitLoop_isSome` shows the fuel
used by `wait_for_agent_c_task` is never exhausted. -/
def waitLoop (oracle : Nat → PollResponse) (timeout poll_interval : Nat) :
    Nat → Nat → Nat → Option (Bool × Nat)
  | 0, _, _ => none
  | fuel + 1, elapsed, polls =>
      if elapsed > timeout then some (false, polls)
      else
        match classifyPoll (oracle polls) with
        | .ret b => some (b, polls + 1)
        | .again =>
            waitLoop oracle timeout poll_interval fuel (elapsed + poll_interval) (polls + 1)

/-- Poll the remote service until a terminal status or timeout; returns the
success flag together with the number of polls issued.  Mirrors
`wait_for_agent_c_task(task_id, timeout, poll_interval)`. -/
def wait_for_agent_c_task (oracle : Nat → PollResponse) (timeout poll_interval : Nat) :
    Option (Bool × Nat) :=
  waitLoop oracle timeout poll_interval (timeout + 2) 0 0

/-- Outcome of the external effects attempted for one artifact of a batch:
whether `copy_and_add_id` raised, the task id `call_agent_c_analyze`
returned (None on submission failure), and the boolean
`wait_for_agent_c_task` came back with. -/
structure ArtifactOutcome where
  copyResult : Except String Unit
  submitResult : Option String
  waitSuccess : Bool
deriving DecidableEq, Repr

/-- Result of the per-artifact loop of `process_analysis_task`: final
registry, registry snapshots after each mutation, number of
`call_agent_c_analyze` submissions issued, and the exception that aborted
the loop, if any. -/
structure LoopResult where
  registry : Registry
  snaps : List Registry
  submits : Nat
  err : Option String
deriving Repr

/-- The `for idx, cti_file in enumerate(cti_files, 1)` loop body of
`process_analysis_task`: copy and tag the artifact (an exception here aborts
the batch), submit it (a None task id skips to the next artifact), mark the
task `waiting_for_agent_c`, poll to terminal, and append to
`processed_files` only on success, returning the status to `processing`. -/
def processFiles (id : String) :
    List (String × ArtifactOutcome) → Registry → LoopResult
  | [], reg => ⟨reg, [], 0, none⟩
  | (name, o) :: rest, reg =>
      match o.copyResult with
      | .error e => ⟨reg, [], 0, some e⟩
      | .ok _ =>
          match o.submitResult with
          | none =>
              let r := processFiles id rest reg
              ⟨r.registry, r.snaps, r.submits + 1, r.err⟩
          | some acid =>
              let reg1 := updateTask reg id (fun t =>
                { t with agent_c_task_id := some acid, status := .waitingForAgentC })
              if o.waitSuccess then
                let reg2 := updateTask reg1 id (fun t =>
                  { t with processed_files := t.processed_files.map (· ++ [name]),
                           status := .processing })
                let r := processFiles id rest reg2
                ⟨r.registry, reg1 :: reg2 :: r.snaps, r.submits + 1, r.err⟩
              else
                let r := processFiles id rest reg1
                ⟨r.registry, reg1 :: r.snaps, r.submits + 1, r.err⟩

/-- Result of one `process_analysis_task` run: final registry, registry
snapshots after each mutation, the advanced clock, and the number of remote
submissions issued. -/
structure RunResult where
  registry : Registry
  snaps : List Registry
  clock : Nat
  submits : Nat
deriving Repr

/-- One sequential-lane task execution, mirroring `process_analysis_task`:
mark the task `processing` with `started_at`; with no discovered artifacts
complete immediately with `file_count` 0; otherwise record the count,
initialize `processed_files`, run the per-artifact loop, and finish
`completed`, or `failed` with the error if the loop raised.  `ctiFiles`
pairs each discovered artifact name with the outcomes of the external calls
made for it. -/
def process_analysis_task (task_id : String) (message_data : MsgData)
    (ctiFiles : List (String × ArtifactOutcome)) (reg : Registry) (clock : Nat) :
    RunResult :=
  let reg1 := updateTask reg task_id (fun t =>
    { t with status := .processing, started_at := some clock })
  let c1 := clock + 1
  match ctiFiles with
  | [] =>
      let reg2 := updateTask reg1 task_id (fun t =>
        { t with status := .completed, completed_at := some c1, file_count := some 0 })
      ⟨reg2, [reg1, reg2], c1 + 1, 0⟩
  | _ :: _ =>
      let reg2 := updateTask reg1 task_id (fun t =>
        { t with file_count := some ctiFiles.length, processed_files := some [] })
      let r := processFiles task_id ctiFiles reg2
      match r.err with
      | none =>
          let reg3 := updateTask r.registry task_id (fun t =>
            { t with status := .completed, completed_at := some c1 })
          ⟨reg3, reg1 :: reg2 :: (r.snaps ++ [reg3]), c1 + 1, r.submits⟩
      | some e =>
          let reg3 := updateTask r.registry task_id (fun t =>
            { t with status := .failed, completed_at := some c1, error := some e })
          ⟨reg3, reg1 :: reg2 :: (r.snaps ++ [reg3]), c1 + 1, r.submits⟩

/-- An item of the internal `analysis_queue`, together with the environment
(discovered artifacts and external-call outcomes) its processing will see. -/
structure QueueItem where
  task_id : String
  message_data : MsgData
  ctiFiles : List (String × ArtifactOutcome)
deriving Repr

/-- The single background worker `task_processor_worker`, run over a finite
prefix of the internal queue: it dequeues one item at a time and fully runs
`process_analysis_task` on it before dequeuing the next. -/
def task_processor_worker : List QueueItem → Registry → Nat → Registry × Nat
  | [], reg, clock => (reg, clock)
  | item :: rest, reg, clock =>
      let r := process_analysis_task item.task_id item.message_data item.ctiFiles reg clock
      task_processor_worker rest r.registry r.clock

/-- Result of the sequential-lane `on_message` callback: the registry, the
internal analysis queue, the broker reply, and the advanced clock. -/
structure OnMessageResult where
  registry : Registry
  queue : List (String × MsgData)
  action : AckAction
  clock : Nat
deriving Repr

/-- The sequential-lane `on_message` callback: decode the body (any
exception, in particular a JSON decode failure, leads to a negative
acknowledgment with requeue), create the task record in `queued`, enqueue it
on the internal queue, and acknowledge; a failure of the acknowledgment call
itself is caught by the same handler and also leads to a nack. -/
def on_message (body : Except String MsgData) (newId : String)
    (ackOutcome : Except String Unit) (reg : Registry)
    (queue : List (String × MsgData)) (clock : Nat) : OnMessageResult :=
  match body with
  | .error _ => ⟨reg, queue, .nackRequeue, clock⟩
  | .ok m =>
      let t : Task := { task_id := newId, status := .queued, created_at := clock,
                        message_data := some m }
      let reg1 := insertTask reg newId t
      let q1 := queue ++ [(newId, m)]
      match ackOutcome with
      | .ok _ => ⟨reg1, q1, .ack, clock + 1⟩
      | .error _ => ⟨reg1, q1, .nackRequeue, clock + 1⟩

end AgentC

namespace AgentB

/-- Task statuses of the parallel worker pool (agent_b_web). -/
inductive Status where
  | pending
  | running
  | completed
  | failed
deriving DecidableEq, Repr

/-- Terminal statuses of the pool state machine. -/
def Status.isTerminal : Status → Bool
  | .completed => true
  | .failed => true
  | _ => false

/-- The string stored in the Python dict for each status value. -/
def Status.toStr : Status → String
  | .pending => "pending"
  | .running => "running"
  | .completed => "completed"
  | .failed => "failed"

/-- One task record of the worker pool, mirroring the dict created in
`process_message_wrapper` of agent_b_web/app.py. -/
structure Task where
  task_id : String
  status : Status
  created_at : Nat
  started_at : Option Nat := none
  completed_at : Option Nat := none
  message_data : Option MsgData := none
  file_count : Option Nat := none
  merged_file : Option String := none
  error : Option String := none
deriving DecidableEq, Repr

/-- The in-memory task registry `tasks_storage` of the worker pool. -/
abbrev Registry := List (String × Task)

/-- Outcomes of the external steps of one `process_message` run: the records
produced by `load_and_transform_json_files` (files that fail to load are
already skipped there), and whether `merge_and_save`,
`execute_chunk_and_ingest` and the final `unlink` raised. -/
structure Env where
  transformedData : List MsgData
  mergeResult : Except String String
  ingestResult : Except String Unit
  unlinkResult : Except String Unit
deriving DecidableEq, Repr

/-- Result of one `process_message` run: final registry, registry snapshots
after each mutation, the advanced clock, and how many times `merge_and_save`
and `execute_chunk_and_ingest` were invoked. -/
structure RunResult where
  registry : Registry
  snaps : List Registry
  clock : Nat
  mergeCalls : Nat
  ingestCalls : Nat
deriving Repr

/-- The failure handler of `process_message`: mark the task `failed` with
`completed_at` and the error message. -/
def failTask (reg : Registry) (id : String) (c : Nat) (e : String) : Registry :=
  updateTask reg id (fun t =>
    { t with status := .failed, completed_at := some c, error := some e })

/-- One pool task execution, mirroring `process_message`: mark the task
`running` with `started_at`; with no transformed records complete
immediately with `file_count` 0; otherwise record the count, merge and save,
run chunk-and-ingest, delete the merged file, and complete — any exception
along the way is caught and turns the task `failed` with the error message,
without re-raising. -/
def process_message (message_data : MsgData) (task_id : String) (env : Env)
    (reg : Registry) (clock : Nat) : RunResult :=
  let reg1 := updateTask reg task_id (fun t =>
    { t with status := .running, started_at := some clock })
  let c1 := clock + 1
  if env.transformedData.isEmpty then
    let reg2 := updateTask reg1 task_id (fun t =>
      { t with status := .completed, completed_at := some c1, file_count := some 0 })
    ⟨reg2, [reg1, reg2], c1 + 1, 0, 0⟩
  else
    let reg2 := updateTask reg1 task_id (fun t =>
      { t with file_count := some env.transformedData.length })
    match env.mergeResult with
    | .error e =>
        let reg3 := failTask reg2 task_id c1 e
        ⟨reg3, [reg1, reg2, reg3], c1 + 1, 1, 0⟩
    | .ok path =>
        let reg3 := updateTask reg2 task_id (fun t =>
          { t with merged_file := some path })
        match env.ingestResult with
        | .error e =>
            let reg4 := failTask reg3 task_id c1 e
            ⟨reg4, [reg1, reg2, reg3, reg4], c1 + 1, 1, 1⟩
        | .ok _ =>
            match env.unlinkResult with
            | .error e =>
                let reg4 := failTask reg3 task_id c1 e
                ⟨reg4, [reg1, reg2, reg3, reg4], c1 + 1, 1, 1⟩
            | .ok _ =>
                let reg4 := updateTask reg3 task_id (fun t =>
                  { t with status := .completed, completed_at := some c1 })
                ⟨reg4, [reg1, reg2, reg3, reg4], c1 + 1, 1, 1⟩

/-- Result of one `process_message_wrapper` run: final registry, registry
snapshots after each mutation, the advanced clock, the broker replies
issued, and the external-call counters. -/
structure WrapperResult where
  registry : Registry
  snaps : List Registry
  clock : Nat
  actions : List AckAction
  mergeCalls : Nat
  ingestCalls : Nat
deriving Repr

/-- One worker unit of the pool, mirroring `process_message_wrapper`: decode
the body (a decode failure reaches the handler before the task record is
created, so the registry is untouched and the message is nacked with
requeue), create the task in `pending`, run `process_message` (which catches
its own exceptions), then marshal the ack onto the connection thread; if the
ack marshaling itself raises, the handler re-marks the task `failed` —
overwriting its terminal state and `completed_at` — and nacks with
requeue. -/
def process_message_wrapper (body : Except String MsgData) (task_id : String)
    (env : Env) (ackOutcome : Except String Unit) (reg : Registry) (clock : Nat) :
    WrapperResult :=
  match body with
  | .error e =>
      if (lookupTask reg task_id).isSome then
        let regf := failTask reg task_id clock e
        ⟨regf, [regf], clock + 1, [.nackRequeue], 0, 0⟩
      else
        ⟨reg, [], clock, [.nackRequeue], 0, 0⟩
  | .ok m =>
      let t : Task := { task_id := task_id, status := .pending, created_at := clock,
                        message_data := some m }
      let reg1 := insertTask reg task_id t
      let r := process_message m task_id env reg1 (clock + 1)
      match ackOutcome with
      | .ok _ =>
          ⟨r.registry, reg1 :: r.snaps, r.clock, [.ack], r.mergeCalls, r.ingestCalls⟩
      | .error e =>
          let regf := failTask r.registry task_id r.clock e
          ⟨regf, reg1 :: (r.snaps ++ [regf]), r.clock + 1, [.nackRequeue],
            r.mergeCalls, r.ingestCalls⟩

/-- The first exception `process_message` will hit for a given environment,
if any: merge, then ingest, then unlink, attempted in that order and only
when some records were loaded. -/
def envError (env : Env) : Option String :=
  if env.transformedData.isEmpty then none
  else
    match env.mergeResult with
    | .error e => some e
    | .ok _ =>
        match env.ingestResult with
        | .error e => some e
        | .ok _ =>
            match env.unlinkResult with
            | .error e => some e
            | .ok _ => none

end AgentB

namespace Proj

/-- A reference to one mutable task dict held by the registry: in Python,
`tasks_storage` maps each task id to a shared reference to its dict, and
every entry of `list(tasks_storage.values())` is such a reference. -/
abbrev Ref := Nat

/-- Write through one reference: a concurrent in-place mutation of that
task's dict, as performed by the worker threads. -/
def writeRef {τ : Type} (heap : Ref → τ) (r : Ref) (f : τ → τ) : Ref → τ :=
  fun x => if x = r then f (heap x) else heap x

/-- Stable insertion of one element into a sorted list. -/
def insertSorted {α : Type} (le : α → α → Bool) (x : α) : List α → List α
  | [] => [x]
  | y :: ys => if le x y then x :: y :: ys else y :: insertSorted le x ys

/-- Sorting as used by the endpoint; the factoring theorems below only need
that it is a pure list function commuting with `map`. -/
def sortBy {α : Type} (le : α → α → Bool) : List α → List α
  | [] => []
  | x :: xs => insertSorted le x (sortBy le xs)

/-- `GET /tasks`, mirroring `list_tasks`: snapshot the list of record
references under the lock, then — without the lock — filter by status, sort
by `created_at` descending, truncate to `limit`, and build the response
models from the field values (`TaskInfo(**task)` reads every field out of
the live dict into a fresh model). -/
def list_tasks {τ : Type} (statusOf : τ → String) (createdOf : τ → Nat)
    (heap : Ref → τ) (storage : List Ref) (status : Option String) (limit : Nat) :
    List τ :=
  let all_tasks := storage
  let filtered :=
    match status with
    | some s => all_tasks.filter (fun r => statusOf (heap r) == s)
    | none => all_tasks
  let sorted := sortBy (fun r1 r2 => createdOf (heap r2) ≤ createdOf (heap r1)) filtered
  let limited := sorted.take limit
  limited.map (fun r => heap r)

/-- The same filter/sort/limit pipeline over a by-value snapshot of the
records: what the caller of `list_tasks` is left holding. -/
def list_tasks_values {τ : Type} (statusOf : τ → String) (createdOf : τ → Nat)
    (tasks : List τ) (status : Option String) (limit : Nat) : List τ :=
  let filtered :=
    match status with
    | some s => tasks.filter (fun t => statusOf t == s)
    | none => tasks
  (sortBy (fun t1 t2 => createdOf t2 ≤ createdOf t1) filtered).take limit

/-- `GET /tasks/{task_id}`, mirroring `get_task_status`: look the reference
up under the lock, then build the response model from the field values. -/
def get_task_status {τ : Type} (heap : Ref → τ) (storage : List (String × Ref))
    (id : String) : Option τ :=
  (lookupTask storage id).map (fun r => heap r)

end Proj

/-- Once a task record reaches a terminal status, every later registry state
of the trace holds the identical record. -/
def TerminalStable {τ : Type} (isTerm : τ → Bool) (states : List (List (String × τ)))
    (id : String) : Prop :=
  ∀ (i j : Nat) r₁ r₂ t, i ≤ j → states[i]? = some r₁ → states[j]? = some r₂ →
    lookupTask r₁ id = some t → isTerm t = true → lookupTask r₂ id = some t

/-- In every registry state of the trace, the record's `completed_at` is set
exactly when its status is terminal. -/
def CompletedMatchesTerminal {τ : Type} (isTerm : τ → Bool)
    (completedOf : τ → Option Nat) (states : List (List (String × τ)))
    (id : String) : Prop :=
  ∀ r ∈ states, ∀ t, lookupTask r id = some t → (completedOf t).isSome = isTerm t

/-- A registry slot a fresh task may occupy: either absent, or a record that
is not yet terminal and has no `completed_at` (as created by the consumer
callbacks). -/
def freshSlot {τ : Type} (isTerm : τ → Bool) (completedOf : τ → Option Nat) :
    Option τ → Bool
  | none => true
  | some t => !isTerm t && (completedOf t).isNone

/-- The registry states one sequential-lane task execution passes through:
the initial registry followed by the state after each mutation. -/
def AgentC.processTrace (task_id : String) (message_data : MsgData)
    (ctiFiles : List (String × AgentC.ArtifactOutcome)) (reg : AgentC.Registry)
    (clock : Nat) : List AgentC.Registry :=
  reg :: (AgentC.process_analysis_task task_id message_data ctiFiles reg clock).snaps

/-- The registry states one pool worker unit passes through: the initial
registry followed by the state after each mutation. -/
def AgentB.wrapperTrace (body : Except String MsgData) (task_id : String)
    (env : AgentB.Env) (ackOutcome : Except String Unit) (reg : AgentB.Registry)
    (clock : Nat) : List AgentB.Registry :=
  reg :: (AgentB.process_message_wrapper body task_id env ackOutcome reg clock).snaps

/-! ### Registry (dict) lemmas -/

theorem lookupTask_insertTask_self {τ : Type} (reg : List (String × τ)) (id : String)
    (t : τ) : lookupTask (insertTask reg id t) id = some t := by
  induction reg with
  | nil => simp [insertTask, lookupTask]
  | cons p rest ih =>
      obtain ⟨k, v⟩ := p
      by_cases h : k = id <;> simp [insertTask, lookupTask, h, ih]

theorem lookupTask_insertTask_other {τ : Type} (reg : List (String × τ)) (id x : String)
    (t : τ) (hx : x ≠ id) : lookupTask (insertTask reg id t) x = lookupTask reg x := by
  induction reg with
  | nil => simp [insertTask, lookupTask, Ne.symm hx]
  | cons p rest ih =>
      obtain ⟨k, v⟩ := p
      by_cases h : k = id
      · subst h
        simp [insertTask, lookupTask, Ne.symm hx]
      · simp [insertTask, lookupTask, h, ih]

theorem lookupTask_updateTask_self {τ : Type} (reg : List (String × τ)) (id : String)
    (f : τ → τ) : lookupTask (updateTask reg id f) id = (lookupTask reg id).map f := by
  induction reg with
  | nil => simp [updateTask, lookupTask]
  | cons p rest ih =>
      obtain ⟨k, v⟩ := p
      by_cases h : k = id <;> simp [updateTask, lookupTask, h, ih]

theorem lookupTask_updateTask_other {τ : Type} (reg : List (String × τ)) (id x : String)
    (f : τ → τ) (hx : x ≠ id) : lookupTask (updateTask reg id f) x = lookupTask reg x := by
  induction reg with
  | nil => simp [updateTask, lookupTask]
  | cons p rest ih =>
      obtain ⟨k, v⟩ := p
      by_cases h : k = id
      · subst h
        simp [updateTask, lookupTask, Ne.symm hx]
      · simp [updateTask, lookupTask, h, ih]

/-! ### Poller lemmas -/

theorem AgentC.waitLoop_isSome (oracle : Nat → AgentC.PollResponse)
    (timeout poll_interval : Nat) :
    ∀ fuel elapsed polls, 1 ≤ fuel →
      timeout + poll_interval < elapsed + fuel * poll_interval →
      (AgentC.waitLoop oracle timeout poll_interval fuel elapsed polls).isSome := by
  intro fuel
  induction fuel with
  | zero => intro _ _ h; omega
  | succ n ih =>
      intro elapsed polls _ hlt
      rw [AgentC.waitLoop]
      by_cases he : elapsed > timeout
      · simp [he]
      · simp only [he, if_false]
        match AgentC.classifyPoll (oracle polls) with
        | .ret b => simp
        | .again =>
            cases n with
            | zero => exact absurd (by omega : elapsed > timeout) he
            | succ m =>
                have h1 : (m + 1 + 1) * poll_interval
                    = (m + 1) * poll_interval + poll_interval := by ring
                apply ih (elapsed + poll_interval) (polls + 1) <;> omega

/-! ### Stability helpers -/

theorem terminalStable_of_concat {τ : Type} (isTerm : τ → Bool)
    (front : List (List (String × τ))) (last : List (String × τ)) (id : String)
    (h : ∀ r ∈ front, ∀ t, lookupTask r id = some t → isTerm t = false) :
    TerminalStable isTerm (front ++ [last]) id := by
  intro i j r₁ r₂ t hij hi hj hl hterm
  have hjlen : j < front.length + 1 := by
    simpa using (List.getElem?_eq_some.mp hj).1
  rcases eq_or_lt_of_le hij with rfl | hlt
  · rw [hi] at hj
    rw [Option.some_inj.mp hj] at hl
    exact hl
  · have hi_front : i < front.length := by omega
    rw [List.getElem?_append_left hi_front] at hi
    have := h r₁ (List.getElem?_mem hi) t hl
    rw [hterm] at this
    cases this

theorem terminalStable_of_const {τ : Type} (isTerm : τ → Bool)
    (states : List (List (String × τ))) (id : String) (c : Option τ)
    (h : ∀ r ∈ states, lookupTask r id = c) :
    TerminalStable isTerm states id := by
  intro i j r₁ r₂ t hij hi hj hl hterm
  have h1 := h r₁ (List.getElem?_mem hi)
  have h2 := h r₂ (List.getElem?_mem hj)
  rw [h1] at hl
  rw [hl] at h2
  exact h2

/-! ### Status-projection (copy semantics) lemmas -/

theorem Proj.insertSorted_map {α β : Type} (f : α → β) (le : β → β → Bool) (x : α) :
    ∀ l : List α, Proj.insertSorted le (f x) (l.map f)
      = (Proj.insertSorted (fun a b => le (f a) (f b)) x l).map f := by
  intro l
  induction l with
  | nil => simp [Proj.insertSorted]
  | cons y ys ih =>
      by_cases h : le (f x) (f y) <;> simp [Proj.insertSorted, h, ih]

theorem Proj.sortBy_map {α β : Type} (f : α → β) (le : β → β → Bool) :
    ∀ l : List α, Proj.sortBy le (l.map f)
      = (Proj.sortBy (fun a b => le (f a) (f b)) l).map f := by
  intro l
  induction l with
  | nil => simp [Proj.sortBy]
  | cons y ys ih => simp [Proj.sortBy, ih, Proj.insertSorted_map]

theorem Proj.filter_comp_map {α β : Type} (f : α → β) (p : β → Bool) :
    ∀ l : List α, (l.map f).filter p = (l.filter (fun a => p (f a))).map f := by
  intro l
  induction l with
  | nil => simp
  | cons y ys ih =>
      by_cases h : p (f y) <;> simp [List.filter, h, ih]

/-- The endpoint pipeline factors through the by-value snapshot of the
records taken at call time: `list_tasks` over the heap equals the pure
pipeline over the copied values, so nothing in its output refers back into
the mutable store. -/
theorem Proj.list_tasks_eq_values {τ : Type} (statusOf : τ → String)
    (createdOf : τ → Nat) (heap : Proj.Ref → τ) (storage : List Proj.Ref)
    (status : Option String) (limit : Nat) :
    Proj.list_tasks statusOf createdOf heap storage status limit
      = Proj.list_tasks_values statusOf createdOf (storage.map heap) status limit := by
  unfold Proj.list_tasks Proj.list_tasks_values
  cases status with
  | none =>
      simp only
      rw [Proj.sortBy_map, ← List.map_take]
  | some s =>
      simp only
      rw [Proj.filter_comp_map, Proj.sortBy_map, ← List.map_take]

/-! ### Sequential-lane batch loop lemmas -/

theorem AgentC.processFiles_registry_other (id x : String) (hx : x ≠ id) :
    ∀ (files : List (String × AgentC.ArtifactOutcome)) (reg : AgentC.Registry),
      lookupTask (AgentC.processFiles id files reg).registry x = lookupTask reg x := by
  intro files
  induction files with
  | nil => intro reg; rfl
  | cons p rest ih =>
      intro reg
      obtain ⟨name, o⟩ := p
      cases hc : o.copyResult with
      | error e => simp [AgentC.processFiles, hc]
      | ok u =>
          cases hs : o.submitResult with
          | none => simp [AgentC.processFiles, hc, hs, ih]
          | some acid =>
              by_cases hw : o.waitSuccess <;>
                simp [AgentC.processFiles, hc, hs, hw, ih,
                  lookupTask_updateTask_other _ _ _ _ hx]

theorem AgentC.processFiles_snaps_other (id x : String) (hx : x ≠ id) :
    ∀ (files : List (String × AgentC.ArtifactOutcome)) (reg : AgentC.Registry),
      ∀ r ∈ (AgentC.processFiles id files reg).snaps,
        lookupTask r x = lookupTask reg x := by
  intro files
  induction files with
  | nil => intro reg r hr; simp [AgentC.processFiles] at hr
  | cons p rest ih =>
      intro reg r hr
      obtain ⟨name, o⟩ := p
      cases hc : o.copyResult with
      | error e => simp [AgentC.processFiles, hc] at hr
      | ok u =>
          cases hs : o.submitResult with
          | none =>
              simp only [AgentC.processFiles, hc, hs] at hr
              exact ih reg r hr
          | some acid =>
              by_cases hw : o.waitSuccess
              · simp only [AgentC.processFiles, hc, hs, hw, if_true,
                  List.mem_cons] at hr
                rcases hr with rfl | rfl | hr
                · exact lookupTask_updateTask_other _ _ _ _ hx
                · rw [lookupTask_updateTask_other _ _ _ _ hx,
                    lookupTask_updateTask_other _ _ _ _ hx]
                · rw [ih _ r hr, lookupTask_updateTask_other _ _ _ _ hx,
                    lookupTask_updateTask_other _ _ _ _ hx]
              · simp [AgentC.processFiles, hc, hs, hw, List.mem_cons] at hr
                rcases hr with rfl | hr
                · exact lookupTask_updateTask_other _ _ _ _ hx
                · rw [ih _ r hr, lookupTask_updateTask_other _ _ _ _ hx]

theorem AgentC.processFiles_self (id : String) :
    ∀ (files : List (String × AgentC.ArtifactOutcome)) (reg : AgentC.Registry)
      (t : AgentC.Task), lookupTask reg id = some t →
      ∃ t', lookupTask (AgentC.processFiles id files reg).registry id = some t' ∧
        t'.started_at = t.started_at ∧ t'.completed_at = t.completed_at ∧
        t'.error = t.error ∧ t'.file_count = t.file_count := by
  intro files
  induction files with
  | nil =>
      intro reg t ht
      exact ⟨t, ht, rfl, rfl, rfl, rfl⟩
  | cons p rest ih =>
      intro reg t ht
      obtain ⟨name, o⟩ := p
      cases hc : o.copyResult with
      | error e => exact ⟨t, by simp [AgentC.processFiles, hc, ht], rfl, rfl, rfl, rfl⟩
      | ok u =>
          cases hs : o.submitResult with
          | none =>
              obtain ⟨t', h1, h2, h3, h4, h5⟩ := ih reg t ht
              refine ⟨t', ?_, h2, h3, h4, h5⟩
              simp [AgentC.processFiles, hc, hs, h1]
          | some acid =>
              by_cases hw : o.waitSuccess
              · have h2 : lookupTask (updateTask (updateTask reg id (fun t =>
                    { t with agent_c_task_id := some acid,
                             status := AgentC.Status.waitingForAgentC })) id
                    (fun t => { t with
                      processed_files := t.processed_files.map (· ++ [name]),
                      status := AgentC.Status.processing })) id
                    = some { t with
                        agent_c_task_id := some acid,
                        processed_files := t.processed_files.map (· ++ [name]),
                        status := AgentC.Status.processing } := by
                  rw [lookupTask_updateTask_self, lookupTask_updateTask_self, ht]
                  rfl
                obtain ⟨t', h1, hb, hc2, hd, he⟩ := ih _ _ h2
                refine ⟨t', ?_, hb, hc2, hd, he⟩
                simp [AgentC.processFiles, hc, hs, hw, h1]
              · have h2 : lookupTask (updateTask reg id (fun t =>
                    { t with agent_c_task_id := some acid,
                             status := AgentC.Status.waitingForAgentC })) id
                    = some { t with
                        agent_c_task_id := some acid,
                        status := AgentC.Status.waitingForAgentC } := by
                  rw [lookupTask_updateTask_self, ht]
                  rfl
                obtain ⟨t', h1, hb, hc2, hd, he⟩ := ih _ _ h2
                refine ⟨t', ?_, hb, hc2, hd, he⟩
                simp [AgentC.processFiles, hc, hs, hw, h1]

theorem AgentC.processFiles_none (id : String) :
    ∀ (files : List (String × AgentC.ArtifactOutcome)) (reg : AgentC.Registry),
      lookupTask reg id = none →
      lookupTask (AgentC.processFiles id files reg).registry id = none := by
  intro files
  induction files with
  | nil => intro reg ht; exact ht
  | cons p rest ih =>
      intro reg ht
      obtain ⟨name, o⟩ := p
      cases hc : o.copyResult with
      | error e => simpa [AgentC.processFiles, hc] using ht
      | ok u =>
          cases hs : o.submitResult with
          | none => simp [AgentC.processFiles, hc, hs, ih reg ht]
          | some acid =>
              by_cases hw : o.waitSuccess <;>
                simp [AgentC.processFiles, hc, hs, hw] <;>
                apply ih <;>
                simp [lookupTask_updateTask_self, ht]

theorem AgentC.processFiles_snaps_self (id : String) :
    ∀ (files : List (String × AgentC.ArtifactOutcome)) (reg : AgentC.Registry),
      (∀ t0, lookupTask reg id = some t0 → t0.completed_at = none) →
      ∀ r ∈ (AgentC.processFiles id files reg).snaps, ∀ t, lookupTask r id = some t →
        t.status.isTerminal = false ∧ t.completed_at = none := by
  intro files
  induction files with
  | nil => intro reg hreg r hr; simp [AgentC.processFiles] at hr
  | cons p rest ih =>
      intro reg hreg r hr
      obtain ⟨name, o⟩ := p
      cases hc : o.copyResult with
      | error e => simp [AgentC.processFiles, hc] at hr
      | ok u =>
          cases hs : o.submitResult with
          | none =>
              simp only [AgentC.processFiles, hc, hs] at hr
              exact ih reg hreg r hr
          | some acid =>
              by_cases hw : o.waitSuccess
              · simp only [AgentC.processFiles, hc, hs, hw, if_true,
                  List.mem_cons] at hr
                rcases hr with rfl | rfl | hr
                · intro t htl
                  rw [lookupTask_updateTask_self] at htl
                  cases h0 : lookupTask reg id with
                  | none => rw [h0] at htl; cases htl
                  | some t0 =>
                      rw [h0] at htl
                      cases htl
                      exact ⟨rfl, hreg t0 h0⟩
                · intro t htl
                  rw [lookupTask_updateTask_self, lookupTask_updateTask_self] at htl
                  cases h0 : lookupTask reg id with
                  | none => rw [h0] at htl; cases htl
                  | some t0 =>
                      rw [h0] at htl
                      cases htl
                      exact ⟨rfl, hreg t0 h0⟩
                · refine ih _ ?_ r hr
                  intro t0 ht0
                  rw [lookupTask_updateTask_self, lookupTask_updateTask_self] at ht0
                  cases h0 : lookupTask reg id with
                  | none => rw [h0] at ht0; cases ht0
                  | some t1 =>
                      rw [h0] at ht0
                      cases ht0
                      exact hreg t1 h0
              · simp [AgentC.processFiles, hc, hs, hw, List.mem_cons] at hr
                rcases hr with rfl | hr
                · intro t htl
                  rw [lookupTask_updateTask_self] at htl
                  cases h0 : lookupTask reg id with
                  | none => rw [h0] at htl; cases htl
                  | some t0 =>
                      rw [h0] at htl
                      cases htl
                      exact ⟨rfl, hreg t0 h0⟩
                · refine ih _ ?_ r hr
                  intro t0 ht0
                  rw [lookupTask_updateTask_self] at ht0
                  cases h0 : lookupTask reg id with
                  | none => rw [h0] at ht0; cases ht0
                  | some t1 =>
                      rw [h0] at ht0
                      cases ht0
                      exact hreg t1 h0

theorem AgentC.processFiles_ok (id : String) :
    ∀ (files : List (String × AgentC.ArtifactOutcome)) (reg : AgentC.Registry)
      (t : AgentC.Task),
      (∀ p ∈ files, p.2.copyResult = Except.ok ()) →
      lookupTask reg id = some t →
      (AgentC.processFiles id files reg).err = none ∧
      ∃ t', lookupTask (AgentC.processFiles id files reg).registry id = some t' ∧
        t'.processed_files = t.processed_files.map
          (fun l => l ++ (files.filter
            (fun p => p.2.submitResult.isSome && p.2.waitSuccess)).map Prod.fst) ∧
        t'.started_at = t.started_at := by
  intro files
  induction files with
  | nil =>
      intro reg t hall ht
      refine ⟨rfl, t, ht, ?_, rfl⟩
      simp
  | cons p rest ih =>
      intro reg t hall ht
      obtain ⟨name, o⟩ := p
      have hcopy : o.copyResult = Except.ok () := hall (name, o) (List.mem_cons_self _ _)
      have hall' : ∀ p ∈ rest, p.2.copyResult = Except.ok () :=
        fun p hp => hall p (List.mem_cons_of_mem _ hp)
      cases hs : o.submitResult with
      | none =>
          obtain ⟨herr, t', h1, hpf, hst⟩ := ih reg t hall' ht
          refine ⟨?_, t', ?_, ?_, hst⟩
          · simp [AgentC.processFiles, hcopy, hs, herr]
          · simp [AgentC.processFiles, hcopy, hs, h1]
          · rw [hpf]
            simp [hs]
      | some acid =>
          by_cases hw : o.waitSuccess
          · have hmem : lookupTask (updateTask (updateTask reg id (fun t =>
                { t with agent_c_task_id := some acid,
                         status := AgentC.Status.waitingForAgentC })) id
                (fun t => { t with
                  processed_files := t.processed_files.map (· ++ [name]),
                  status := AgentC.Status.processing })) id
                = some { t with
                    agent_c_task_id := some acid,
                    processed_files := t.processed_files.map (· ++ [name]),
                    status := AgentC.Status.processing } := by
              rw [lookupTask_updateTask_self, lookupTask_updateTask_self, ht]
              rfl
            obtain ⟨herr, t', h1, hpf, hst⟩ := ih _ _ hall' hmem
            refine ⟨?_, t', ?_, ?_, hst⟩
            · simp [AgentC.processFiles, hcopy, hs, hw, herr]
            · simp [AgentC.processFiles, hcopy, hs, hw, h1]
            · rw [hpf]
              cases hopt : t.processed_files <;>
                simp [hs, hw, hopt, List.append_assoc]
          · have hmem : lookupTask (updateTask reg id (fun t =>
                { t with agent_c_task_id := some acid,
                         status := AgentC.Status.waitingForAgentC })) id
                = some { t with
                    agent_c_task_id := some acid,
                    status := AgentC.Status.waitingForAgentC } := by
              rw [lookupTask_updateTask_self, ht]
              rfl
            obtain ⟨herr, t', h1, hpf, hst⟩ := ih _ _ hall' hmem
            refine ⟨?_, t', ?_, ?_, hst⟩
            · simp [AgentC.processFiles, hcopy, hs, hw, herr]
            · simp [AgentC.processFiles, hcopy, hs, hw, h1]
            · rw [hpf]
              simp [hs, hw]

/-! ### Sequential-lane task-run lemmas -/

theorem AgentC.process_clock (task_id : String) (m : MsgData)
    (files : List (String × AgentC.ArtifactOutcome)) (reg : AgentC.Registry)
    (clock : Nat) :
    (AgentC.process_analysis_task task_id m files reg clock).clock = clock + 2 := by
  rw [AgentC.process_analysis_task.eq_def]
  cases files with
  | nil => rfl
  | cons p rest =>
      simp only
      split <;> rfl

theorem AgentC.process_registry_other (task_id x : String) (hx : x ≠ task_id)
    (m : MsgData) (files : List (String × AgentC.ArtifactOutcome))
    (reg : AgentC.Registry) (clock : Nat) :
    lookupTask (AgentC.process_analysis_task task_id m files reg clock).registry x
      = lookupTask reg x := by
  rw [AgentC.process_analysis_task.eq_def]
  cases files with
  | nil =>
      simp only
      rw [lookupTask_updateTask_other _ _ _ _ hx, lookupTask_updateTask_other _ _ _ _ hx]
  | cons p rest =>
      simp only
      split <;>
        rw [lookupTask_updateTask_other _ _ _ _ hx,
          AgentC.processFiles_registry_other _ _ hx,
          lookupTask_updateTask_other _ _ _ _ hx,
          lookupTask_updateTask_other _ _ _ _ hx]

theorem AgentC.process_self (task_id : String) (m : MsgData)
    (files : List (String × AgentC.ArtifactOutcome)) (reg : AgentC.Registry)
    (clock : Nat) (t0 : AgentC.Task) (h : lookupTask reg task_id = some t0) :
    ∃ t, lookupTask (AgentC.process_analysis_task task_id m files reg clock).registry
        task_id = some t ∧
      t.started_at = some clock ∧ t.completed_at = some (clock + 1) ∧
      t.status.isTerminal = true := by
  rw [AgentC.process_analysis_task.eq_def]
  cases files with
  | nil =>
      simp only
      rw [lookupTask_updateTask_self, lookupTask_updateTask_self, h]
      exact ⟨_, rfl, rfl, rfl, rfl⟩
  | cons p rest =>
      simp only
      have h2 : lookupTask (updateTask (updateTask reg task_id (fun t =>
          { t with status := AgentC.Status.processing, started_at := some clock }))
          task_id (fun t =>
          { t with file_count := some (p :: rest).length,
                   processed_files := some [] })) task_id
          = some { t0 with
              status := AgentC.Status.processing, started_at := some clock,
              file_count := some (p :: rest).length, processed_files := some [] } := by
        rw [lookupTask_updateTask_self, lookupTask_updateTask_self, h]
        rfl
      obtain ⟨t', h1, hst, hco, herr2, hfc⟩ := AgentC.processFiles_self task_id
        (p :: rest) _ _ h2
      split <;>
      · rw [lookupTask_updateTask_self, h1]
        exact ⟨_, rfl, hst, rfl, rfl⟩

theorem AgentC.process_none (task_id : String) (m : MsgData)
    (files : List (String × AgentC.ArtifactOutcome)) (reg : AgentC.Registry)
    (clock : Nat) (h : lookupTask reg task_id = none) :
    lookupTask (AgentC.process_analysis_task task_id m files reg clock).registry
      task_id = none := by
  rw [AgentC.process_analysis_task.eq_def]
  cases files with
  | nil =>
      simp only
      rw [lookupTask_updateTask_self, lookupTask_updateTask_self, h]
      rfl
  | cons p rest =>
      simp only
      have h2 : lookupTask (updateTask (updateTask reg task_id (fun t =>
          { t with status := AgentC.Status.processing, started_at := some clock }))
          task_id (fun t =>
          { t with file_count := some (p :: rest).length,
                   processed_files := some [] })) task_id = none := by
        rw [lookupTask_updateTask_self, lookupTask_updateTask_self, h]
        rfl
      have h3 := AgentC.processFiles_none task_id (p :: rest) _ h2
      split <;>
      · rw [lookupTask_updateTask_self, h3]
        rfl

theorem AgentC.process_snaps_other (task_id x : String) (hx : x ≠ task_id)
    (m : MsgData) (files : List (String × AgentC.ArtifactOutcome))
    (reg : AgentC.Registry) (clock : Nat) :
    ∀ r ∈ (AgentC.process_analysis_task task_id m files reg clock).snaps,
      lookupTask r x = lookupTask reg x := by
  rw [AgentC.process_analysis_task.eq_def]
  cases files with
  | nil =>
      intro r hr
      simp only [List.mem_cons, List.not_mem_nil, or_false] at hr
      rcases hr with rfl | rfl
      · exact lookupTask_updateTask_other _ _ _ _ hx
      · rw [lookupTask_updateTask_other _ _ _ _ hx,
          lookupTask_updateTask_other _ _ _ _ hx]
  | cons p rest =>
      intro r hr
      simp only at hr
      split at hr <;>
      · simp only [List.mem_cons, List.mem_append, List.not_mem_nil, or_false,
          List.mem_singleton] at hr
        rcases hr with rfl | rfl | hr | rfl
        · exact lookupTask_updateTask_other _ _ _ _ hx
        · rw [lookupTask_updateTask_other _ _ _ _ hx,
            lookupTask_updateTask_other _ _ _ _ hx]
        · rw [AgentC.processFiles_snaps_other _ _ hx _ _ r hr,
            lookupTask_updateTask_other _ _ _ _ hx,
            lookupTask_updateTask_other _ _ _ _ hx]
        · rw [lookupTask_updateTask_other _ _ _ _ hx,
            AgentC.processFiles_registry_other _ _ hx,
            lookupTask_updateTask_other _ _ _ _ hx,
            lookupTask_updateTask_other _ _ _ _ hx]

/-! ### Sequential worker lemmas -/

theorem AgentC.worker_frame (x : String) :
    ∀ (items : List AgentC.QueueItem) (reg : AgentC.Registry) (clock : Nat),
      (∀ it ∈ items, it.task_id ≠ x) →
      lookupTask (AgentC.task_processor_worker items reg clock).1 x
        = lookupTask reg x := by
  intro items
  induction items with
  | nil => intro reg clock _; rfl
  | cons it rest ih =>
      intro reg clock h
      rw [AgentC.task_processor_worker]
      rw [ih _ _ (fun i hi => h i (List.mem_cons_of_mem _ hi))]
      exact AgentC.process_registry_other _ _
        (Ne.symm (h it (List.mem_cons_self _ _))) _ _ _ _

theorem AgentC.worker_spec :
    ∀ (items : List AgentC.QueueItem) (reg : AgentC.Registry) (clock : Nat),
      (items.map (fun it => it.task_id)).Nodup →
      (∀ it ∈ items, (lookupTask reg it.task_id).isSome) →
      ∀ (k : Nat) (hk : k < items.length),
        ∃ t, lookupTask (AgentC.task_processor_worker items reg clock).1
            (items[k].task_id) = some t ∧
          t.started_at = some (clock + 2 * k) ∧
          t.completed_at = some (clock + 2 * k + 1) ∧
          t.status.isTerminal = true := by
  intro items
  induction items with
  | nil => intro reg clock _ _ k hk; exact absurd hk (by simp)
  | cons it rest ih =>
      intro reg clock hnodup hpres k hk
      have hnot : it.task_id ∉ rest.map (fun i => i.task_id) :=
        (List.nodup_cons.mp hnodup).1
      have hnodup' : (rest.map (fun i => i.task_id)).Nodup :=
        (List.nodup_cons.mp hnodup).2
      cases k with
      | zero =>
          obtain ⟨t0, ht0⟩ := Option.isSome_iff_exists.mp
            (hpres it (List.mem_cons_self _ _))
          obtain ⟨t, h1, h2, h3, h4⟩ := AgentC.process_self it.task_id
            it.message_data it.ctiFiles reg clock t0 ht0
          rw [AgentC.task_processor_worker]
          simp only [List.getElem_cons_zero]
          have hne : ∀ i ∈ rest, i.task_id ≠ it.task_id := by
            intro i hi heq
            exact hnot (heq ▸ List.mem_map_of_mem _ hi)
          rw [AgentC.worker_frame _ rest _ _ hne]
          exact ⟨t, h1, by simp [h2], by simp [h3], h4⟩
      | succ k' =>
          have hk' : k' < rest.length := by
            simpa using Nat.lt_of_succ_lt_succ hk
          have hpres' : ∀ i ∈ rest, (lookupTask
              ((AgentC.process_analysis_task it.task_id it.message_data
                it.ctiFiles reg clock).registry) i.task_id).isSome := by
            intro i hi
            have hne : i.task_id ≠ it.task_id := by
              intro heq
              exact hnot (heq ▸ List.mem_map_of_mem _ hi)
            rw [AgentC.process_registry_other _ _ hne]
            exact hpres i (List.mem_cons_of_mem _ hi)
          obtain ⟨t, h1, h2, h3, h4⟩ := ih ((AgentC.process_analysis_task
              it.task_id it.message_data it.ctiFiles reg clock).registry)
            (clock + 2) hnodup' hpres' k' hk'
          rw [AgentC.task_processor_worker]
          rw [AgentC.process_clock]
          simp only [List.getElem_cons_succ]
          refine ⟨t, h1, ?_, ?_, h4⟩
          · rw [h2]
            congr 1
            omega
          · rw [h3]
            congr 1
            omega

/-- C1: in the Sequential Lane, for every pair of queue positions i < j, the
task at position i has reached a terminal state — with its `completed_at`
timestamp set — strictly before the task at position j gets its
`started_at`: the single background worker fully drains one task before
dequeuing the next. -/
theorem c1_sequential_serialization
    (items : List AgentC.QueueItem) (reg : AgentC.Registry) (clock : Nat)
    (hnodup : (items.map (fun it => it.task_id)).Nodup)
    (hpres : ∀ it ∈ items, (lookupTask reg it.task_id).isSome)
    (i j : Nat) (hi : i < items.length) (hj : j < items.length) (hij : i < j) :
    ∃ ti tj fi sj,
      lookupTask (AgentC.task_processor_worker items reg clock).1
        (items[i].task_id) = some ti ∧
      lookupTask (AgentC.task_processor_worker items reg clock).1
        (items[j].task_id) = some tj ∧
      ti.status.isTerminal = true ∧ ti.completed_at = some fi ∧
      tj.started_at = some sj ∧ fi < sj := by
  obtain ⟨ti, hti, hsi, hci, hterm_i⟩ := AgentC.worker_spec items reg clock
    hnodup hpres i hi
  obtain ⟨tj, htj, hsj, hcj, hterm_j⟩ := AgentC.worker_spec items reg clock
    hnodup hpres j hj
  exact ⟨ti, tj, clock + 2 * i + 1, clock + 2 * j, hti, htj, hterm_i, hci, hsj,
    by omega⟩

/-- Witness for C1: two queued tasks processed by the worker; the first
finishes (timestamp 3) strictly before the second starts (timestamp 4). -/
theorem c1_sequential_serialization_witness :
    ∃ ti tj fi sj,
      lookupTask (AgentC.task_processor_worker
          [⟨"t1", [], []⟩, ⟨"t2", [], []⟩]
          [("t1", { task_id := "t1", status := AgentC.Status.queued, created_at := 0 }),
           ("t2", { task_id := "t2", status := AgentC.Status.queued, created_at := 1 })]
          2).1
        (([⟨"t1", [], []⟩, ⟨"t2", [], []⟩] :
          List AgentC.QueueItem)[0].task_id) = some ti ∧
      lookupTask (AgentC.task_processor_worker
          [⟨"t1", [], []⟩, ⟨"t2", [], []⟩]
          [("t1", { task_id := "t1", status := AgentC.Status.queued, created_at := 0 }),
           ("t2", { task_id := "t2", status := AgentC.Status.queued, created_at := 1 })]
          2).1
        (([⟨"t1", [], []⟩, ⟨"t2", [], []⟩] :
          List AgentC.QueueItem)[1].task_id) = some tj ∧
      ti.status.isTerminal = true ∧ ti.completed_at = some fi ∧
      tj.started_at = some sj ∧ fi < sj :=
  c1_sequential_serialization
    [⟨"t1", [], []⟩, ⟨"t2", [], []⟩]
    [("t1", { task_id := "t1", status := AgentC.Status.queued, created_at := 0 }),
     ("t2", { task_id := "t2", status := AgentC.Status.queued, created_at := 1 })]
    2 (by decide) (by decide) 0 1 (by decide) (by decide) (by decide)

/-- C2 counterexample: with a valid body, an empty input directory and a
failing acknowledgment marshaling, the pool worker first completes the task
(`completed`, `completed_at = 2`) and then overwrites it to `failed` with a
second `completed_at = 3`: the task leaves a terminal state, refuting the
claim on the acknowledgment-failure path. -/
theorem c2_terminal_state_counterexample :
    ¬ TerminalStable (fun t : AgentB.Task => t.status.isTerminal)
        (AgentB.wrapperTrace (Except.ok []) "t"
          ⟨[], Except.ok "p", Except.ok (), Except.ok ()⟩
          (Except.error "boom") [] 0) "t" ∧
    (AgentB.wrapperTrace (Except.ok []) "t"
        ⟨[], Except.ok "p", Except.ok (), Except.ok ()⟩
        (Except.error "boom") [] 0).map
      (fun r => (lookupTask r "t").map
        (fun t => (t.status, t.completed_at)))
      = [none, some (AgentB.Status.pending, none),
         some (AgentB.Status.running, none),
         some (AgentB.Status.completed, some 2),
         some (AgentB.Status.failed, some 3)] := by
  constructor
  · intro h
    have h34 := h 3 4
      [("t", { task_id := "t", status := AgentB.Status.completed, created_at := 0,
               started_at := some 1, completed_at := some 2,
               message_data := some [], file_count := some 0 })]
      [("t", { task_id := "t", status := AgentB.Status.failed, created_at := 0,
               started_at := some 1, completed_at := some 3,
               message_data := some [], file_count := some 0,
               error := some "boom" })]
      { task_id := "t", status := AgentB.Status.completed, created_at := 0,
        started_at := some 1, completed_at := some 2,
        message_data := some [], file_count := some 0 }
      (by omega) (by decide) (by decide) (by decide) (by decide)
    exact absurd h34 (by decide)
  · decide

/-! ### Pool worker lemmas -/

theorem AgentB.process_message_registry_other (task_id x : String) (hx : x ≠ task_id)
    (m : MsgData) (env : AgentB.Env) (reg : AgentB.Registry) (clock : Nat) :
    lookupTask (AgentB.process_message m task_id env reg clock).registry x
      = lookupTask reg x := by
  rw [AgentB.process_message]
  by_cases he : env.transformedData.isEmpty <;> simp only [he, Bool.false_eq_true, if_true, if_false]
  · rw [lookupTask_updateTask_other _ _ _ _ hx, lookupTask_updateTask_other _ _ _ _ hx]
  · cases hm : env.mergeResult with
    | error e =>
        simp only
        rw [AgentB.failTask, lookupTask_updateTask_other _ _ _ _ hx,
          lookupTask_updateTask_other _ _ _ _ hx, lookupTask_updateTask_other _ _ _ _ hx]
    | ok path =>
        cases hi : env.ingestResult with
        | error e =>
            simp only
            rw [AgentB.failTask, lookupTask_updateTask_other _ _ _ _ hx,
              lookupTask_updateTask_other _ _ _ _ hx,
              lookupTask_updateTask_other _ _ _ _ hx,
              lookupTask_updateTask_other _ _ _ _ hx]
        | ok u =>
            cases hu : env.unlinkResult with
            | error e =>
                simp only
                rw [AgentB.failTask, lookupTask_updateTask_other _ _ _ _ hx,
                  lookupTask_updateTask_other _ _ _ _ hx,
                  lookupTask_updateTask_other _ _ _ _ hx,
                  lookupTask_updateTask_other _ _ _ _ hx]
            | ok v =>
                simp only
                rw [lookupTask_updateTask_other _ _ _ _ hx,
                  lookupTask_updateTask_other _ _ _ _ hx,
                  lookupTask_updateTask_other _ _ _ _ hx,
                  lookupTask_updateTask_other _ _ _ _ hx]

theorem AgentB.process_message_snaps_other (task_id x : String) (hx : x ≠ task_id)
    (m : MsgData) (env : AgentB.Env) (reg : AgentB.Registry) (clock : Nat) :
    ∀ r ∈ (AgentB.process_message m task_id env reg clock).snaps,
      lookupTask r x = lookupTask reg x := by
  intro r hr
  rw [AgentB.process_message] at hr
  by_cases he : env.transformedData.isEmpty <;>
    simp only [he, Bool.false_eq_true, if_true, if_false] at hr
  · simp only [List.mem_cons, List.not_mem_nil, or_false] at hr
    rcases hr with rfl | rfl <;>
      simp [lookupTask_updateTask_other _ _ _ _ hx]
  · cases hm : env.mergeResult with
    | error e =>
        simp only [hm, List.mem_cons, List.not_mem_nil, or_false] at hr
        rcases hr with rfl | rfl | rfl <;>
          simp [AgentB.failTask, lookupTask_updateTask_other _ _ _ _ hx]
    | ok path =>
        cases hi : env.ingestResult with
        | error e =>
            simp only [hm, hi, List.mem_cons, List.not_mem_nil, or_false] at hr
            rcases hr with rfl | rfl | rfl | rfl <;>
              simp [AgentB.failTask, lookupTask_updateTask_other _ _ _ _ hx]
        | ok u =>
            cases hu : env.unlinkResult with
            | error e =>
                simp only [hm, hi, hu, List.mem_cons, List.not_mem_nil,
                  or_false] at hr
                rcases hr with rfl | rfl | rfl | rfl <;>
                  simp [AgentB.failTask, lookupTask_updateTask_other _ _ _ _ hx]
            | ok v =>
                simp only [hm, hi, hu, List.mem_cons, List.not_mem_nil,
                  or_false] at hr
                rcases hr with rfl | rfl | rfl | rfl <;>
                  simp [lookupTask_updateTask_other _ _ _ _ hx]

theorem AgentB.wrapper_other (body : Except String MsgData) (task_id x : String)
    (hx : x ≠ task_id) (env : AgentB.Env) (ackOutcome : Except String Unit)
    (reg : AgentB.Registry) (clock : Nat) :
    ∀ r ∈ AgentB.wrapperTrace body task_id env ackOutcome reg clock,
      lookupTask r x = lookupTask reg x := by
  intro r hr
  rcases List.mem_cons.mp hr with rfl | hr
  · rfl
  rw [AgentB.process_message_wrapper.eq_def] at hr
  cases body with
  | error e =>
      by_cases hl : (lookupTask reg task_id).isSome
      · simp [hl] at hr
        subst hr
        simp [AgentB.failTask, lookupTask_updateTask_other _ _ _ _ hx]
      · simp [hl] at hr
  | ok m =>
      cases ackOutcome with
      | ok u =>
          simp only [List.mem_cons] at hr
          rcases hr with rfl | hr
          · exact lookupTask_insertTask_other _ _ _ _ hx
          · rw [AgentB.process_message_snaps_other task_id x hx m env _ _ r hr]
            exact lookupTask_insertTask_other _ _ _ _ hx
      | error e =>
          simp only [List.mem_cons, List.mem_append, List.not_mem_nil, or_false,
            List.mem_singleton] at hr
          rcases hr with rfl | hr | rfl
          · exact lookupTask_insertTask_other _ _ _ _ hx
          · rw [AgentB.process_message_snaps_other task_id x hx m env _ _ r hr]
            exact lookupTask_insertTask_other _ _ _ _ hx
          · rw [AgentB.failTask, lookupTask_updateTask_other _ _ _ _ hx,
              AgentB.process_message_registry_other task_id x hx m env _ _,
              lookupTask_insertTask_other _ _ _ _ hx]

/-! ### Terminal-state stability of the two lanes -/

theorem AgentC.processTrace_lookup_const (task_id x : String) (hx : x ≠ task_id)
    (m : MsgData) (files : List (String × AgentC.ArtifactOutcome))
    (reg : AgentC.Registry) (clock : Nat) :
    ∀ r ∈ AgentC.processTrace task_id m files reg clock,
      lookupTask r x = lookupTask reg x := by
  intro r hr
  rcases List.mem_cons.mp hr with rfl | hr
  · rfl
  · exact AgentC.process_snaps_other task_id x hx m files reg clock r hr

theorem AgentC.freshSlot_spec (task_id : String) (reg : AgentC.Registry)
    (hfresh : freshSlot (fun t : AgentC.Task => t.status.isTerminal)
      (fun t => t.completed_at) (lookupTask reg task_id) = true) :
    ∀ t0, lookupTask reg task_id = some t0 →
      t0.status.isTerminal = false ∧ t0.completed_at = none := by
  intro t0 h0
  rw [h0] at hfresh
  simp only [freshSlot, Bool.and_eq_true, Bool.not_eq_true',
    Option.isNone_iff_eq_none] at hfresh
  exact hfresh

theorem AgentC.processTrace_stable (task_id : String) (m : MsgData)
    (files : List (String × AgentC.ArtifactOutcome)) (reg : AgentC.Registry)
    (clock : Nat) (x : String)
    (hfresh : freshSlot (fun t : AgentC.Task => t.status.isTerminal)
      (fun t => t.completed_at) (lookupTask reg task_id) = true) :
    TerminalStable (fun t : AgentC.Task => t.status.isTerminal)
      (AgentC.processTrace task_id m files reg clock) x := by
  by_cases hx : task_id = x
  · subst hx
    have hf1 := AgentC.freshSlot_spec task_id reg hfresh
    rw [AgentC.processTrace, AgentC.process_analysis_task.eq_def]
    cases files with
    | nil =>
        refine terminalStable_of_concat _ [_, _] _ _ ?_
        intro r hr t ht
        simp only [List.mem_cons, List.not_mem_nil, or_false] at hr
        rcases hr with rfl | rfl
        · exact (hf1 t ht).1
        · rw [lookupTask_updateTask_self] at ht
          cases h0 : lookupTask reg task_id with
          | none => rw [h0] at ht; cases ht
          | some t0 => rw [h0] at ht; cases ht; rfl
    | cons p rest =>
        simp only
        split <;>
        · refine terminalStable_of_concat _ (_ :: _ :: _ :: _) _ _ ?_
          intro r hr t ht
          simp only [List.mem_cons] at hr
          rcases hr with rfl | rfl | rfl | hr
          · exact (hf1 t ht).1
          · rw [lookupTask_updateTask_self] at ht
            cases h0 : lookupTask reg task_id with
            | none => rw [h0] at ht; cases ht
            | some t0 => rw [h0] at ht; cases ht; rfl
          · rw [lookupTask_updateTask_self, lookupTask_updateTask_self] at ht
            cases h0 : lookupTask reg task_id with
            | none => rw [h0] at ht; cases ht
            | some t0 => rw [h0] at ht; cases ht; rfl
          · refine (AgentC.processFiles_snaps_self task_id (p :: rest) _ ?_
              r hr t ht).1
            intro t0 h0
            rw [lookupTask_updateTask_self, lookupTask_updateTask_self] at h0
            cases h1 : lookupTask reg task_id with
            | none => rw [h1] at h0; cases h0
            | some t1 => rw [h1] at h0; cases h0; exact (hf1 t1 h1).2
  · exact terminalStable_of_const _ _ _ (lookupTask reg x)
      (AgentC.processTrace_lookup_const task_id x (Ne.symm hx) m files reg clock)

theorem AgentC.processTrace_cmt (task_id : String) (m : MsgData)
    (files : List (String × AgentC.ArtifactOutcome)) (reg : AgentC.Registry)
    (clock : Nat)
    (hfresh : freshSlot (fun t : AgentC.Task => t.status.isTerminal)
      (fun t => t.completed_at) (lookupTask reg task_id) = true) :
    CompletedMatchesTerminal (fun t : AgentC.Task => t.status.isTerminal)
      (fun t => t.completed_at)
      (AgentC.processTrace task_id m files reg clock) task_id := by
  have hf1 := AgentC.freshSlot_spec task_id reg hfresh
  rw [AgentC.processTrace, AgentC.process_analysis_task.eq_def]
  cases files with
  | nil =>
      intro r hr t ht
      simp only [List.mem_cons, List.not_mem_nil, or_false] at hr
      rcases hr with rfl | rfl | rfl
      · simp [(hf1 t ht).1, (hf1 t ht).2]
      · rw [lookupTask_updateTask_self] at ht
        cases h0 : lookupTask reg task_id with
        | none => rw [h0] at ht; cases ht
        | some t0 =>
            rw [h0] at ht; cases ht
            simp [AgentC.Status.isTerminal, (hf1 t0 h0).2]
      · rw [lookupTask_updateTask_self, lookupTask_updateTask_self] at ht
        cases h0 : lookupTask reg task_id with
        | none => rw [h0] at ht; cases ht
        | some t0 => rw [h0] at ht; cases ht; rfl
  | cons p rest =>
      simp only
      split <;>
      · intro r hr t ht
        simp only [List.mem_cons, List.mem_append, List.not_mem_nil, or_false,
          List.mem_singleton] at hr
        rcases hr with rfl | rfl | rfl | hr | rfl
        · simp [(hf1 t ht).1, (hf1 t ht).2]
        · rw [lookupTask_updateTask_self] at ht
          cases h0 : lookupTask reg task_id with
          | none => rw [h0] at ht; cases ht
          | some t0 =>
              rw [h0] at ht; cases ht
              simp [AgentC.Status.isTerminal, (hf1 t0 h0).2]
        · rw [lookupTask_updateTask_self, lookupTask_updateTask_self] at ht
          cases h0 : lookupTask reg task_id with
          | none => rw [h0] at ht; cases ht
          | some t0 =>
              rw [h0] at ht; cases ht
              simp [AgentC.Status.isTerminal, (hf1 t0 h0).2]
        · have hsnap := AgentC.processFiles_snaps_self task_id (p :: rest) _ ?_
            r hr t ht
          · simp [hsnap.1, hsnap.2]
          · intro t0 h0
            rw [lookupTask_updateTask_self, lookupTask_updateTask_self] at h0
            cases h1 : lookupTask reg task_id with
            | none => rw [h1] at h0; cases h0
            | some t1 => rw [h1] at h0; cases h0; exact (hf1 t1 h1).2
        · rw [lookupTask_updateTask_self] at ht
          cases h0 : lookupTask (AgentC.processFiles task_id (p :: rest) _).registry
              task_id with
          | none => rw [h0] at ht; cases ht
          | some t1 => rw [h0] at ht; cases ht; rfl

theorem AgentB.wrapperTrace_ackOk_stable (body : Except String MsgData)
    (task_id : String) (env : AgentB.Env) (reg : AgentB.Registry) (clock : Nat)
    (x : String) (hfresh : lookupTask reg task_id = none) :
    TerminalStable (fun t : AgentB.Task => t.status.isTerminal)
      (AgentB.wrapperTrace body task_id env (Except.ok ()) reg clock) x := by
  by_cases hx : task_id = x
  · subst hx
    rw [AgentB.wrapperTrace, AgentB.process_message_wrapper.eq_def]
    cases body with
    | error e =>
        simp only [hfresh, Option.isSome_none, Bool.false_eq_true, if_false]
        exact terminalStable_of_concat _ [] _ _ (by simp)
    | ok m =>
        dsimp only
        rw [AgentB.process_message.eq_def]
        by_cases he : env.transformedData.isEmpty <;>
          simp only [he, Bool.false_eq_true, if_true, if_false]
        · refine terminalStable_of_concat _ [_, _, _] _ _ ?_
          intro r hr t ht
          simp only [List.mem_cons, List.not_mem_nil, or_false] at hr
          rcases hr with rfl | rfl | rfl
          · rw [hfresh] at ht; cases ht
          · rw [lookupTask_insertTask_self] at ht; cases ht; rfl
          · rw [lookupTask_updateTask_self, lookupTask_insertTask_self] at ht
            cases ht; rfl
        · cases hm : env.mergeResult with
          | error e =>
              simp only [hm]
              refine terminalStable_of_concat _ [_, _, _, _] _ _ ?_
              intro r hr t ht
              simp only [List.mem_cons, List.not_mem_nil, or_false] at hr
              rcases hr with rfl | rfl | rfl | rfl
              · rw [hfresh] at ht; cases ht
              · rw [lookupTask_insertTask_self] at ht; cases ht; rfl
              · rw [lookupTask_updateTask_self, lookupTask_insertTask_self] at ht
                cases ht; rfl
              · rw [lookupTask_updateTask_self, lookupTask_updateTask_self,
                  lookupTask_insertTask_self] at ht
                cases ht; rfl
          | ok path =>
              cases hi : env.ingestResult with
              | error e =>
                  simp only [hm, hi]
                  refine terminalStable_of_concat _ [_, _, _, _, _] _ _ ?_
                  intro r hr t ht
                  simp only [List.mem_cons, List.not_mem_nil, or_false] at hr
                  rcases hr with rfl | rfl | rfl | rfl | rfl
                  · rw [hfresh] at ht; cases ht
                  · rw [lookupTask_insertTask_self] at ht; cases ht; rfl
                  · rw [lookupTask_updateTask_self, lookupTask_insertTask_self] at ht
                    cases ht; rfl
                  · rw [lookupTask_updateTask_self, lookupTask_updateTask_self,
                      lookupTask_insertTask_self] at ht
                    cases ht; rfl
                  · rw [lookupTask_updateTask_self, lookupTask_updateTask_self,
                      lookupTask_updateTask_self, lookupTask_insertTask_self] at ht
                    cases ht; rfl
              | ok u =>
                  cases hu : env.unlinkResult with
                  | error e =>
                      simp only [hm, hi, hu]
                      refine terminalStable_of_concat _ [_, _, _, _, _] _ _ ?_
                      intro r hr t ht
                      simp only [List.mem_cons, List.not_mem_nil, or_false] at hr
                      rcases hr with rfl | rfl | rfl | rfl | rfl
                      · rw [hfresh] at ht; cases ht
                      · rw [lookupTask_insertTask_self] at ht; cases ht; rfl
                      · rw [lookupTask_updateTask_self,
                          lookupTask_insertTask_self] at ht
                        cases ht; rfl
                      · rw [lookupTask_updateTask_self, lookupTask_updateTask_self,
                          lookupTask_insertTask_self] at ht
                        cases ht; rfl
                      · rw [lookupTask_updateTask_self, lookupTask_updateTask_self,
                          lookupTask_updateTask_self,
                          lookupTask_insertTask_self] at ht
                        cases ht; rfl
                  | ok v =>
                      simp only [hm, hi, hu]
                      refine terminalStable_of_concat _ [_, _, _, _, _] _ _ ?_
                      intro r hr t ht
                      simp only [List.mem_cons, List.not_mem_nil, or_false] at hr
                      rcases hr with rfl | rfl | rfl | rfl | rfl
                      · rw [hfresh] at ht; cases ht
                      · rw [lookupTask_insertTask_self] at ht; cases ht; rfl
                      · rw [lookupTask_updateTask_self,
                          lookupTask_insertTask_self] at ht
                        cases ht; rfl
                      · rw [lookupTask_updateTask_self, lookupTask_updateTask_self,
                          lookupTask_insertTask_self] at ht
                        cases ht; rfl
                      · rw [lookupTask_updateTask_self, lookupTask_updateTask_self,
                          lookupTask_updateTask_self,
                          lookupTask_insertTask_self] at ht
                        cases ht; rfl
  · exact terminalStable_of_const _ _ _ (lookupTask reg x)
      (AgentB.wrapper_other body task_id x (Ne.symm hx) env (Except.ok ()) reg clock)

theorem AgentB.wrapperTrace_ackOk_cmt (body : Except String MsgData)
    (task_id : String) (env : AgentB.Env) (reg : AgentB.Registry) (clock : Nat)
    (hfresh : lookupTask reg task_id = none) :
    CompletedMatchesTerminal (fun t : AgentB.Task => t.status.isTerminal)
      (fun t => t.completed_at)
      (AgentB.wrapperTrace body task_id env (Except.ok ()) reg clock) task_id := by
  rw [AgentB.wrapperTrace, AgentB.process_message_wrapper.eq_def]
  cases body with
  | error e =>
      simp only [hfresh, Option.isSome_none, Bool.false_eq_true, if_false]
      intro r hr t ht
      simp only [List.mem_cons, List.not_mem_nil, or_false] at hr
      subst hr
      rw [hfresh] at ht
      cases ht
  | ok m =>
      dsimp only
      rw [AgentB.process_message.eq_def]
      by_cases he : env.transformedData.isEmpty <;>
        simp only [he, Bool.false_eq_true, if_true, if_false]
      · intro r hr t ht
        simp only [List.mem_cons, List.not_mem_nil, or_false] at hr
        rcases hr with rfl | rfl | rfl | rfl
        · rw [hfresh] at ht; cases ht
        · rw [lookupTask_insertTask_self] at ht; cases ht; rfl
        · rw [lookupTask_updateTask_self, lookupTask_insertTask_self] at ht
          cases ht; rfl
        · rw [lookupTask_updateTask_self, lookupTask_updateTask_self,
            lookupTask_insertTask_self] at ht
          cases ht; rfl
      · cases hm : env.mergeResult with
        | error e =>
            simp only [hm]
            intro r hr t ht
            simp only [List.mem_cons, List.not_mem_nil, or_false] at hr
            rcases hr with rfl | rfl | rfl | rfl | rfl
            · rw [hfresh] at ht; cases ht
            · rw [lookupTask_insertTask_self] at ht; cases ht; rfl
            · rw [lookupTask_updateTask_self, lookupTask_insertTask_self] at ht
              cases ht; rfl
            · rw [lookupTask_updateTask_self, lookupTask_updateTask_self,
                lookupTask_insertTask_self] at ht
              cases ht; rfl
            · rw [AgentB.failTask, lookupTask_updateTask_self,
                lookupTask_updateTask_self, lookupTask_updateTask_self,
                lookupTask_insertTask_self] at ht
              cases ht; rfl
        | ok path =>
            cases hi : env.ingestResult with
            | error e =>
                simp only [hm, hi]
                intro r hr t ht
                simp only [List.mem_cons, List.not_mem_nil, or_false] at hr
                rcases hr with rfl | rfl | rfl | rfl | rfl | rfl
                · rw [hfresh] at ht; cases ht
                · rw [lookupTask_insertTask_self] at ht; cases ht; rfl
                · rw [lookupTask_updateTask_self, lookupTask_insertTask_self] at ht
                  cases ht; rfl
                · rw [lookupTask_updateTask_self, lookupTask_updateTask_self,
                    lookupTask_insertTask_self] at ht
                  cases ht; rfl
                · rw [lookupTask_updateTask_self, lookupTask_updateTask_self,
                    lookupTask_updateTask_self, lookupTask_insertTask_self] at ht
                  cases ht; rfl
                · rw [AgentB.failTask, lookupTask_updateTask_self,
                    lookupTask_updateTask_self, lookupTask_updateTask_self,
                    lookupTask_updateTask_self, lookupTask_insertTask_self] at ht
                  cases ht; rfl
            | ok u =>
                cases hu : env.unlinkResult with
                | error e =>
                    simp only [hm, hi, hu]
                    intro r hr t ht
                    simp only [List.mem_cons, List.not_mem_nil, or_false] at hr
                    rcases hr with rfl | rfl | rfl | rfl | rfl | rfl
                    · rw [hfresh] at ht; cases ht
                    · rw [lookupTask_insertTask_self] at ht; cases ht; rfl
                    · rw [lookupTask_updateTask_self,
                        lookupTask_insertTask_self] at ht
                      cases ht; rfl
                    · rw [lookupTask_updateTask_self, lookupTask_updateTask_self,
                        lookupTask_insertTask_self] at ht
                      cases ht; rfl
                    · rw [lookupTask_updateTask_self, lookupTask_updateTask_self,
                        lookupTask_updateTask_self,
                        lookupTask_insertTask_self] at ht
                      cases ht; rfl
                    · rw [AgentB.failTask, lookupTask_updateTask_self,
                        lookupTask_updateTask_self, lookupTask_updateTask_self,
                        lookupTask_updateTask_self,
                        lookupTask_insertTask_self] at ht
                      cases ht; rfl
                | ok v =>
                    simp only [hm, hi, hu]
                    intro r hr t ht
                    simp only [List.mem_cons, List.not_mem_nil, or_false] at hr
                    rcases hr with rfl | rfl | rfl | rfl | rfl | rfl
                    · rw [hfresh] at ht; cases ht
                    · rw [lookupTask_insertTask_self] at ht; cases ht; rfl
                    · rw [lookupTask_updateTask_self,
                        lookupTask_insertTask_self] at ht
                      cases ht; rfl
                    · rw [lookupTask_updateTask_self, lookupTask_updateTask_self,
                        lookupTask_insertTask_self] at ht
                      cases ht; rfl
                    · rw [lookupTask_updateTask_self, lookupTask_updateTask_self,
                        lookupTask_updateTask_self,
                        lookupTask_insertTask_self] at ht
                      cases ht; rfl
                    · rw [lookupTask_updateTask_self, lookupTask_updateTask_self,
                        lookupTask_updateTask_self, lookupTask_updateTask_self,
                        lookupTask_insertTask_self] at ht
                      cases ht; rfl

/-- C2 (corrected): terminal states are stable and `completed_at` marks
exactly the terminal states, for the sequential lane on every path, and for
the parallel pool on every path where the acknowledgment marshaling
succeeds; the pool's acknowledgment-failure path, where a completed task is
overwritten to failed with a second `completed_at`, is the exception
established by the counterexample. -/
theorem c2_amended_terminal_stability :
    (∀ (task_id : String) (m : MsgData)
        (files : List (String × AgentC.ArtifactOutcome)) (reg : AgentC.Registry)
        (clock : Nat) (x : String),
        freshSlot (fun t : AgentC.Task => t.status.isTerminal)
            (fun t => t.completed_at) (lookupTask reg task_id) = true →
        TerminalStable (fun t : AgentC.Task => t.status.isTerminal)
            (AgentC.processTrace task_id m files reg clock) x ∧
          CompletedMatchesTerminal (fun t : AgentC.Task => t.status.isTerminal)
            (fun t => t.completed_at)
            (AgentC.processTrace task_id m files reg clock) task_id) ∧
    (∀ (body : Except String MsgData) (task_id : String) (env : AgentB.Env)
        (reg : AgentB.Registry) (clock : Nat) (x : String),
        lookupTask reg task_id = none →
        TerminalStable (fun t : AgentB.Task => t.status.isTerminal)
            (AgentB.wrapperTrace body task_id env (Except.ok ()) reg clock) x ∧
          CompletedMatchesTerminal (fun t : AgentB.Task => t.status.isTerminal)
            (fun t => t.completed_at)
            (AgentB.wrapperTrace body task_id env (Except.ok ()) reg clock) task_id) :=
  ⟨fun task_id m files reg clock x hf =>
      ⟨AgentC.processTrace_stable task_id m files reg clock x hf,
       AgentC.processTrace_cmt task_id m files reg clock hf⟩,
   fun body task_id env reg clock x hf =>
      ⟨AgentB.wrapperTrace_ackOk_stable body task_id env reg clock x hf,
       AgentB.wrapperTrace_ackOk_cmt body task_id env reg clock hf⟩⟩

/-- Witness for the amended C2 at concrete runs of both lanes. -/
theorem c2_amended_terminal_stability_witness :
    (freshSlot (fun t : AgentC.Task => t.status.isTerminal)
        (fun t => t.completed_at)
        (lookupTask
          [("t1", { task_id := "t1", status := AgentC.Status.queued, created_at := 0 })]
          "t1") = true ∧
      TerminalStable (fun t : AgentC.Task => t.status.isTerminal)
        (AgentC.processTrace "t1" []
          [("a.json", ⟨Except.ok (), some "r1", true⟩)]
          [("t1", { task_id := "t1", status := AgentC.Status.queued, created_at := 0 })]
          1) "t1") ∧
    (lookupTask ([] : AgentB.Registry) "t" = none ∧
      TerminalStable (fun t : AgentB.Task => t.status.isTerminal)
        (AgentB.wrapperTrace (Except.ok []) "t"
          ⟨[[("k", "v")]], Except.ok "p", Except.ok (), Except.ok ()⟩
          (Except.ok ()) [] 0) "t") :=
  ⟨⟨by decide,
    (c2_amended_terminal_stability.1 "t1" []
      [("a.json", ⟨Except.ok (), some "r1", true⟩)]
      [("t1", { task_id := "t1", status := AgentC.Status.queued, created_at := 0 })]
      1 "t1" (by decide)).1⟩,
   ⟨rfl,
    (c2_amended_terminal_stability.2 (Except.ok []) "t"
      ⟨[[("k", "v")]], Except.ok "p", Except.ok (), Except.ok ()⟩
      [] 0 "t" rfl).1⟩⟩

/-! ### Claim theorems: error handling and boundary cases -/

/-- C4: a message whose body is not valid JSON is negatively acknowledged
with requeue and the task registry is unchanged — no task record is created
— in both the sequential lane (`on_message`, which also leaves the internal
queue untouched) and the parallel pool (`process_message_wrapper`). -/
theorem c4_malformed_body_nack_no_task :
    (∀ (e newId : String) (ackOutcome : Except String Unit)
        (reg : AgentC.Registry) (queue : List (String × MsgData)) (clock : Nat),
        (AgentC.on_message (Except.error e) newId ackOutcome reg queue clock).registry
            = reg ∧
        (AgentC.on_message (Except.error e) newId ackOutcome reg queue clock).queue
            = queue ∧
        (AgentC.on_message (Except.error e) newId ackOutcome reg queue clock).action
            = AckAction.nackRequeue) ∧
    (∀ (e task_id : String) (env : AgentB.Env) (ackOutcome : Except String Unit)
        (reg : AgentB.Registry) (clock : Nat),
        lookupTask reg task_id = none →
        (AgentB.process_message_wrapper (Except.error e) task_id env ackOutcome
            reg clock).registry = reg ∧
        (AgentB.process_message_wrapper (Except.error e) task_id env ackOutcome
            reg clock).actions = [AckAction.nackRequeue]) := by
  constructor
  · intro e newId ackOutcome reg queue clock
    exact ⟨rfl, rfl, rfl⟩
  · intro e task_id env ackOutcome reg clock h
    rw [AgentB.process_message_wrapper.eq_def]
    simp [h]

/-- Witness for C4 at a concrete malformed message. -/
theorem c4_malformed_body_nack_no_task_witness :
    (AgentC.on_message (Except.error "bad json") "t1" (Except.ok ()) [] [] 0).registry
        = [] ∧
    (AgentB.process_message_wrapper (Except.error "bad json") "t2"
        ⟨[], Except.ok "p", Except.ok (), Except.ok ()⟩ (Except.ok ()) [] 0).registry
        = [] ∧
    (AgentB.process_message_wrapper (Except.error "bad json") "t2"
        ⟨[], Except.ok "p", Except.ok (), Except.ok ()⟩ (Except.ok ()) [] 0).actions
        = [AckAction.nackRequeue] :=
  ⟨(c4_malformed_body_nack_no_task.1 "bad json" "t1" (Except.ok ()) [] [] 0).1,
   (c4_malformed_body_nack_no_task.2 "bad json" "t2"
      ⟨[], Except.ok "p", Except.ok (), Except.ok ()⟩ (Except.ok ()) [] 0 rfl).1,
   (c4_malformed_body_nack_no_task.2 "bad json" "t2"
      ⟨[], Except.ok "p", Except.ok (), Except.ok ()⟩ (Except.ok ()) [] 0 rfl).2⟩

/-- C9: when zero artifacts are discovered (sequential lane) or no input
JSON files yield data (parallel pool), the task goes straight to `completed`
with file count 0, and no remote submission, merge, or chunk-and-ingest call
is made. -/
theorem c9_zero_artifacts_immediate_complete :
    (∀ (task_id : String) (m : MsgData) (reg : AgentC.Registry) (clock : Nat)
        (t0 : AgentC.Task), lookupTask reg task_id = some t0 →
        ∃ t, lookupTask (AgentC.process_analysis_task task_id m [] reg
            clock).registry task_id = some t ∧
          t.status = AgentC.Status.completed ∧ t.file_count = some 0 ∧
          t.completed_at.isSome = true ∧
          (AgentC.process_analysis_task task_id m [] reg clock).submits = 0) ∧
    (∀ (m : MsgData) (task_id : String) (env : AgentB.Env)
        (reg : AgentB.Registry) (clock : Nat) (t0 : AgentB.Task),
        env.transformedData = [] →
        lookupTask reg task_id = some t0 →
        ∃ t, lookupTask (AgentB.process_message m task_id env reg
            clock).registry task_id = some t ∧
          t.status = AgentB.Status.completed ∧ t.file_count = some 0 ∧
          t.completed_at.isSome = true ∧
          (AgentB.process_message m task_id env reg clock).mergeCalls = 0 ∧
          (AgentB.process_message m task_id env reg clock).ingestCalls = 0) := by
  constructor
  · intro task_id m reg clock t0 h
    rw [AgentC.process_analysis_task.eq_def]
    refine ⟨{ t0 with
                status := AgentC.Status.completed,
                started_at := some clock,
                completed_at := some (clock + 1),
                file_count := some 0 },
      ?_, rfl, rfl, rfl, rfl⟩
    dsimp only
    rw [lookupTask_updateTask_self, lookupTask_updateTask_self, h]
    rfl
  · intro m task_id env reg clock t0 hempty h
    rw [AgentB.process_message.eq_def]
    simp only [hempty, List.isEmpty_nil, if_true]
    refine ⟨{ t0 with
                status := AgentB.Status.completed,
                started_at := some clock,
                completed_at := some (clock + 1),
                file_count := some 0 },
      ?_, rfl, rfl, rfl, ?_, ?_⟩
    · dsimp only
      rw [lookupTask_updateTask_self, lookupTask_updateTask_self, h]
      rfl
    · trivial
    · trivial

/-- Witness for C9 at concrete empty-discovery runs of both lanes. -/
theorem c9_zero_artifacts_immediate_complete_witness :
    (∃ t, lookupTask (AgentC.process_analysis_task "t1" [] []
        [("t1", { task_id := "t1", status := AgentC.Status.queued, created_at := 0 })]
        1).registry "t1" = some t ∧
      t.status = AgentC.Status.completed ∧ t.file_count = some 0 ∧
      t.completed_at.isSome = true ∧
      (AgentC.process_analysis_task "t1" [] []
        [("t1", { task_id := "t1", status := AgentC.Status.queued, created_at := 0 })]
        1).submits = 0) ∧
    (∃ t, lookupTask (AgentB.process_message [] "t2"
        ⟨[], Except.ok "p", Except.ok (), Except.ok ()⟩
        [("t2", { task_id := "t2", status := AgentB.Status.pending, created_at := 0 })]
        1).registry "t2" = some t ∧
      t.status = AgentB.Status.completed ∧ t.file_count = some 0 ∧
      t.completed_at.isSome = true ∧
      (AgentB.process_message [] "t2"
        ⟨[], Except.ok "p", Except.ok (), Except.ok ()⟩
        [("t2", { task_id := "t2", status := AgentB.Status.pending, created_at := 0 })]
        1).mergeCalls = 0 ∧
      (AgentB.process_message [] "t2"
        ⟨[], Except.ok "p", Except.ok (), Except.ok ()⟩
        [("t2", { task_id := "t2", status := AgentB.Status.pending, created_at := 0 })]
        1).ingestCalls = 0) :=
  ⟨c9_zero_artifacts_immediate_complete.1 "t1" []
    [("t1", { task_id := "t1", status := AgentC.Status.queued, created_at := 0 })]
    1 _ rfl,
   c9_zero_artifacts_immediate_complete.2 [] "t2"
    ⟨[], Except.ok "p", Except.ok (), Except.ok ()⟩
    [("t2", { task_id := "t2", status := AgentB.Status.pending, created_at := 0 })]
    1 _ rfl rfl⟩

/-- C5: in the parallel pool, when the business transform raises, the
exception is caught inside `process_message`: the task ends `failed` with
`completed_at` set and the error message recorded, and the message is still
positively acknowledged exactly once — no broker-level requeue; the negative
acknowledgment with requeue happens exactly on the path where the
acknowledgment marshaling itself raises. -/
theorem c5_transform_failure_still_acked :
    (∀ (m : MsgData) (task_id : String) (env : AgentB.Env)
        (reg : AgentB.Registry) (clock : Nat) (e : String),
        AgentB.envError env = some e →
        (AgentB.process_message_wrapper (Except.ok m) task_id env (Except.ok ())
            reg clock).actions = [AckAction.ack] ∧
        ∃ t, lookupTask (AgentB.process_message_wrapper (Except.ok m) task_id env
            (Except.ok ()) reg clock).registry task_id = some t ∧
          t.status = AgentB.Status.failed ∧ t.completed_at.isSome = true ∧
          t.error = some e) ∧
    (∀ (m : MsgData) (task_id : String) (env : AgentB.Env)
        (reg : AgentB.Registry) (clock : Nat) (e2 : String),
        (AgentB.process_message_wrapper (Except.ok m) task_id env
            (Except.error e2) reg clock).actions = [AckAction.nackRequeue]) := by
  constructor
  · intro m task_id env reg clock e herr
    rw [AgentB.envError] at herr
    by_cases he : env.transformedData.isEmpty
    · simp [he] at herr
    · simp only [he, Bool.false_eq_true, if_false] at herr
      rw [AgentB.process_message_wrapper.eq_def]
      dsimp only
      constructor
      · rfl
      · rw [AgentB.process_message.eq_def]
        simp only [he, Bool.false_eq_true, if_false]
        cases hm : env.mergeResult with
        | error e1 =>
            rw [hm] at herr
            injection herr with he1
            subst he1
            simp only [hm]
            refine ⟨{ task_id := task_id, status := AgentB.Status.failed,
                        created_at := clock, started_at := some (clock + 1),
                        completed_at := some (clock + 1 + 1),
                        message_data := some m,
                        file_count := some env.transformedData.length,
                        merged_file := none, error := some e1 },
              ?_, rfl, rfl, rfl⟩
            dsimp only [AgentB.failTask]
            rw [lookupTask_updateTask_self, lookupTask_updateTask_self,
              lookupTask_updateTask_self, lookupTask_insertTask_self]
            rfl
        | ok path =>
            rw [hm] at herr
            cases hi : env.ingestResult with
            | error e1 =>
                rw [hi] at herr
                injection herr with he1
                subst he1
                simp only [hm, hi]
                refine ⟨{ task_id := task_id, status := AgentB.Status.failed,
                            created_at := clock, started_at := some (clock + 1),
                            completed_at := some (clock + 1 + 1),
                            message_data := some m,
                            file_count := some env.transformedData.length,
                            merged_file := some path, error := some e1 },
                  ?_, rfl, rfl, rfl⟩
                dsimp only [AgentB.failTask]
                rw [lookupTask_updateTask_self, lookupTask_updateTask_self,
                  lookupTask_updateTask_self, lookupTask_updateTask_self,
                  lookupTask_insertTask_self]
                rfl
            | ok u =>
                rw [hi] at herr
                cases hu : env.unlinkResult with
                | error e1 =>
                    rw [hu] at herr
                    injection herr with he1
                    subst he1
                    simp only [hm, hi, hu]
                    refine ⟨{ task_id := task_id, status := AgentB.Status.failed,
                                created_at := clock, started_at := some (clock + 1),
                                completed_at := some (clock + 1 + 1),
                                message_data := some m,
                                file_count := some env.transformedData.length,
                                merged_file := some path, error := some e1 },
                      ?_, rfl, rfl, rfl⟩
                    dsimp only [AgentB.failTask]
                    rw [lookupTask_updateTask_self, lookupTask_updateTask_self,
                      lookupTask_updateTask_self, lookupTask_updateTask_self,
                      lookupTask_insertTask_self]
                    rfl
                | ok v =>
                    rw [hu] at herr
                    cases herr
  · intro m task_id env reg clock e2
    rw [AgentB.process_message_wrapper.eq_def]

/-- Witness for C5 at a concrete run whose chunk-and-ingest step raises. -/
theorem c5_transform_failure_still_acked_witness :
    AgentB.envError ⟨[[("k", "v")]], Except.ok "p", Except.error "ingest boom",
        Except.ok ()⟩ = some "ingest boom" ∧
    (AgentB.process_message_wrapper (Except.ok []) "t"
        ⟨[[("k", "v")]], Except.ok "p", Except.error "ingest boom", Except.ok ()⟩
        (Except.ok ()) [] 0).actions = [AckAction.ack] ∧
    (∃ t, lookupTask (AgentB.process_message_wrapper (Except.ok []) "t"
        ⟨[[("k", "v")]], Except.ok "p", Except.error "ingest boom", Except.ok ()⟩
        (Except.ok ()) [] 0).registry "t" = some t ∧
      t.status = AgentB.Status.failed ∧ t.completed_at.isSome = true ∧
      t.error = some "ingest boom") ∧
    (AgentB.process_message_wrapper (Except.ok []) "t"
        ⟨[[("k", "v")]], Except.ok "p", Except.ok (), Except.ok ()⟩
        (Except.error "marshal down") [] 0).actions = [AckAction.nackRequeue] :=
  ⟨by decide,
   (c5_transform_failure_still_acked.1 [] "t"
      ⟨[[("k", "v")]], Except.ok "p", Except.error "ingest boom", Except.ok ()⟩
      [] 0 "ingest boom" (by decide)).1,
   (c5_transform_failure_still_acked.1 [] "t"
      ⟨[[("k", "v")]], Except.ok "p", Except.error "ingest boom", Except.ok ()⟩
      [] 0 "ingest boom" (by decide)).2,
   c5_transform_failure_still_acked.2 [] "t"
      ⟨[[("k", "v")]], Except.ok "p", Except.ok (), Except.ok ()⟩
      [] 0 "marshal down"⟩

theorem AgentC.process_ok_spec (task_id : String) (m : MsgData)
    (files : List (String × AgentC.ArtifactOutcome)) (reg : AgentC.Registry)
    (clock : Nat) (t0 : AgentC.Task) (h : lookupTask reg task_id = some t0)
    (hne : files ≠ [])
    (hall : ∀ p ∈ files, p.2.copyResult = Except.ok ()) :
    ∃ t, lookupTask (AgentC.process_analysis_task task_id m files reg
        clock).registry task_id = some t ∧
      t.status = AgentC.Status.completed ∧ t.completed_at = some (clock + 1) ∧
      t.processed_files = some ((files.filter
        (fun p => p.2.submitResult.isSome && p.2.waitSuccess)).map Prod.fst) := by
  cases files with
  | nil => exact absurd rfl hne
  | cons p rest =>
      rw [AgentC.process_analysis_task.eq_def]
      dsimp only
      have h2 : lookupTask (updateTask (updateTask reg task_id (fun t =>
          { t with status := AgentC.Status.processing, started_at := some clock }))
          task_id (fun t =>
          { t with file_count := some (p :: rest).length,
                   processed_files := some [] })) task_id
          = some { t0 with
              status := AgentC.Status.processing, started_at := some clock,
              file_count := some (p :: rest).length, processed_files := some [] } := by
        rw [lookupTask_updateTask_self, lookupTask_updateTask_self, h]
        rfl
      obtain ⟨herr, t', h1, hpf, hst⟩ := AgentC.processFiles_ok task_id
        (p :: rest) _ _ hall h2
      simp only [herr]
      rw [lookupTask_updateTask_self, h1]
      refine ⟨_, rfl, rfl, rfl, ?_⟩
      show t'.processed_files = _
      rw [hpf]
      rfl

/-- C6: a sequential-lane task with N discovered artifacts, all of whose
remote submissions and remote waits succeed, ends `completed` with
`processed_files` of length N. -/
theorem c6_round_trip_all_success (task_id : String) (m : MsgData)
    (files : List (String × AgentC.ArtifactOutcome)) (reg : AgentC.Registry)
    (clock : Nat) (t0 : AgentC.Task) (h : lookupTask reg task_id = some t0)
    (hne : files ≠ [])
    (hall : ∀ p ∈ files, p.2.copyResult = Except.ok () ∧
        p.2.submitResult.isSome = true ∧ p.2.waitSuccess = true) :
    ∃ t l, lookupTask (AgentC.process_analysis_task task_id m files reg
        clock).registry task_id = some t ∧
      t.status = AgentC.Status.completed ∧
      t.processed_files = some l ∧ l.length = files.length := by
  obtain ⟨t, h1, h2, h3, h4⟩ := AgentC.process_ok_spec task_id m files reg clock
    t0 h hne (fun p hp => (hall p hp).1)
  have hfil : files.filter
      (fun p => p.2.submitResult.isSome && p.2.waitSuccess) = files :=
    List.filter_eq_self.mpr (fun p hp => by
      rw [(hall p hp).2.1, (hall p hp).2.2]
      rfl)
  refine ⟨t, _, h1, h2, h4, ?_⟩
  rw [List.length_map, hfil]

/-- Witness for C6: two artifacts, both fully successful, ending completed
with two processed files. -/
theorem c6_round_trip_all_success_witness :
    ∃ t l, lookupTask (AgentC.process_analysis_task "t1" []
        [("a.json", ⟨Except.ok (), some "r1", true⟩),
         ("b.json", ⟨Except.ok (), some "r2", true⟩)]
        [("t1", { task_id := "t1", status := AgentC.Status.queued, created_at := 0 })]
        1).registry "t1" = some t ∧
      t.status = AgentC.Status.completed ∧
      t.processed_files = some l ∧
      l.length = ([("a.json", (⟨Except.ok (), some "r1", true⟩ :
          AgentC.ArtifactOutcome)),
        ("b.json", ⟨Except.ok (), some "r2", true⟩)]).length :=
  c6_round_trip_all_success "t1" []
    [("a.json", ⟨Except.ok (), some "r1", true⟩),
     ("b.json", ⟨Except.ok (), some "r2", true⟩)]
    [("t1", { task_id := "t1", status := AgentC.Status.queued, created_at := 0 })]
    1 _ rfl (by decide) (by decide)

/-- C7: in the sequential lane, an artifact whose remote wait reports
failure (`not_found`, `failed`, or timeout) or whose submission fails is
excluded from `processed_files`; the batch continues with the remaining
artifacts and the task still finishes `completed` with `completed_at`
set. -/
theorem c7_remote_failure_skips_and_continues (task_id : String) (m : MsgData)
    (files : List (String × AgentC.ArtifactOutcome)) (reg : AgentC.Registry)
    (clock : Nat) (t0 : AgentC.Task) (h : lookupTask reg task_id = some t0)
    (hne : files ≠ [])
    (hcopy : ∀ p ∈ files, p.2.copyResult = Except.ok ()) :
    ∃ t, lookupTask (AgentC.process_analysis_task task_id m files reg
        clock).registry task_id = some t ∧
      t.status = AgentC.Status.completed ∧ t.completed_at = some (clock + 1) ∧
      t.processed_files = some ((files.filter
        (fun p => p.2.submitResult.isSome && p.2.waitSuccess)).map Prod.fst) :=
  AgentC.process_ok_spec task_id m files reg clock t0 h hne hcopy

/-- Witness for C7: the middle artifact's remote wait fails and the last
artifact's submission fails; both are excluded, and the batch still ends
completed with exactly the first artifact recorded. -/
theorem c7_remote_failure_skips_and_continues_witness :
    ∃ t, lookupTask (AgentC.process_analysis_task "t1" []
        [("a.json", ⟨Except.ok (), some "r1", true⟩),
         ("b.json", ⟨Except.ok (), some "r2", false⟩),
         ("c.json", ⟨Except.ok (), none, true⟩)]
        [("t1", { task_id := "t1", status := AgentC.Status.queued, created_at := 0 })]
        1).registry "t1" = some t ∧
      t.status = AgentC.Status.completed ∧ t.completed_at = some 2 ∧
      t.processed_files = some (([("a.json", (⟨Except.ok (), some "r1", true⟩ :
          AgentC.ArtifactOutcome)),
        ("b.json", ⟨Except.ok (), some "r2", false⟩),
        ("c.json", ⟨Except.ok (), none, true⟩)].filter
          (fun p => p.2.submitResult.isSome && p.2.waitSuccess)).map Prod.fst) :=
  c7_remote_failure_skips_and_continues "t1" []
    [("a.json", ⟨Except.ok (), some "r1", true⟩),
     ("b.json", ⟨Except.ok (), some "r2", false⟩),
     ("c.json", ⟨Except.ok (), none, true⟩)]
    [("t1", { task_id := "t1", status := AgentC.Status.queued, created_at := 0 })]
    1 _ rfl (by decide) (by decide)

/-- C8: the remote poller always returns a boolean result (the recursion
bound used by `wait_for_agent_c_task` is never exhausted, so no path falls
through); once elapsed time exceeds the timeout it returns failure without
issuing a further poll; `completed`, `failed` and `not_found` are terminal,
the latter two yielding failure; any other status, and any polling error,
leads to a sleep of one poll interval followed by a re-poll. -/
theorem c8_poller_contract :
    (∀ (oracle : Nat → AgentC.PollResponse) (timeout poll_interval : Nat),
        1 ≤ poll_interval →
        (AgentC.wait_for_agent_c_task oracle timeout poll_interval).isSome
          = true) ∧
    (∀ (oracle : Nat → AgentC.PollResponse) (timeout poll_interval fuel
        elapsed polls : Nat), elapsed > timeout →
        AgentC.waitLoop oracle timeout poll_interval (fuel + 1) elapsed polls
          = some (false, polls)) ∧
    (AgentC.classifyPoll (AgentC.PollResponse.ok "completed")
        = AgentC.PollStep.ret true ∧
      AgentC.classifyPoll (AgentC.PollResponse.ok "failed")
        = AgentC.PollStep.ret false ∧
      AgentC.classifyPoll (AgentC.PollResponse.ok "not_found")
        = AgentC.PollStep.ret false ∧
      AgentC.classifyPoll AgentC.PollResponse.httpError
        = AgentC.PollStep.again) ∧
    (∀ s : String, s ≠ "completed" → s ≠ "failed" → s ≠ "not_found" →
        AgentC.classifyPoll (AgentC.PollResponse.ok s)
          = AgentC.PollStep.again) ∧
    (∀ (oracle : Nat → AgentC.PollResponse) (timeout poll_interval fuel
        elapsed polls : Nat), ¬ elapsed > timeout →
        AgentC.classifyPoll (oracle polls) = AgentC.PollStep.again →
        AgentC.waitLoop oracle timeout poll_interval (fuel + 1) elapsed polls
          = AgentC.waitLoop oracle timeout poll_interval fuel
              (elapsed + poll_interval) (polls + 1)) := by
  refine ⟨?_, ?_, ⟨by decide, by decide, by decide, rfl⟩, ?_, ?_⟩
  · intro oracle timeout poll_interval hpi
    apply AgentC.waitLoop_isSome oracle timeout poll_interval (timeout + 2) 0 0
      (by omega)
    have h1 : timeout * 1 ≤ timeout * poll_interval :=
      Nat.mul_le_mul (Nat.le_refl timeout) hpi
    have h2 : (timeout + 2) * poll_interval
        = timeout * poll_interval + 2 * poll_interval := by ring
    omega
  · intro oracle timeout poll_interval fuel elapsed polls h
    rw [AgentC.waitLoop]
    simp [h]
  · intro s h1 h2 h3
    rw [AgentC.classifyPoll]
    simp [h1, h2, h3]
  · intro oracle timeout poll_interval fuel elapsed polls hle hcl
    rw [AgentC.waitLoop]
    simp [hle, hcl]

/-- Witness for C8 at concrete oracles: an always-pending oracle still
yields a result; an expired clock gives up with no further poll; the
unknown status string `weird` re-polls; an HTTP error re-polls after one
interval. -/
theorem c8_poller_contract_witness :
    (1 ≤ 1 ∧
      (AgentC.wait_for_agent_c_task (fun _ => AgentC.PollResponse.ok "pending")
        5 1).isSome = true) ∧
    ((6 : Nat) > 5 ∧
      AgentC.waitLoop (fun _ => AgentC.PollResponse.httpError) 5 1 (0 + 1) 6 0
        = some (false, 0)) ∧
    ("weird" ≠ "completed" ∧ "weird" ≠ "failed" ∧ "weird" ≠ "not_found" ∧
      AgentC.classifyPoll (AgentC.PollResponse.ok "weird")
        = AgentC.PollStep.again) ∧
    (¬ (0 : Nat) > 5 ∧
      AgentC.waitLoop (fun _ => AgentC.PollResponse.httpError) 5 1 (2 + 1) 0 0
        = AgentC.waitLoop (fun _ => AgentC.PollResponse.httpError) 5 1 2
            (0 + 1) (0 + 1)) :=
  ⟨⟨Nat.le_refl 1,
    c8_poller_contract.1 (fun _ => AgentC.PollResponse.ok "pending") 5 1
      (Nat.le_refl 1)⟩,
   ⟨by omega,
    c8_poller_contract.2.1 (fun _ => AgentC.PollResponse.httpError) 5 1 0 6 0
      (by omega)⟩,
   ⟨by decide, by decide, by decide,
    c8_poller_contract.2.2.2.1 "weird" (by decide) (by decide) (by decide)⟩,
   ⟨by omega,
    c8_poller_contract.2.2.2.2 (fun _ => AgentC.PollResponse.httpError) 5 1 2 0 0
      (by omega) rfl⟩⟩

/-- C10: artifact discovery in the sequential lane selects exactly the
directory entries matching the glob `*.json` (every name ending in `.json`,
hidden names included) — not only names following the `cti_*_*.json`
convention advertised in the module docstring: `report.json` and the hidden
`.secret.json` are selected although neither matches the convention. -/
theorem c10_discovery_globs_all_json :
    (∀ (dirListing : List String) (name : String),
        name ∈ AgentC.find_cti_files dirListing ↔
          name ∈ dirListing ∧ AgentC.globMatchesJson name = true) ∧
    AgentC.globMatchesJson "report.json" = true ∧
    AgentC.ctiConventionMatch "report.json" = false ∧
    AgentC.globMatchesJson ".secret.json" = true ∧
    AgentC.ctiConventionMatch ".secret.json" = false ∧
    AgentC.ctiConventionMatch "cti_alpha_2.json" = true ∧
    AgentC.globMatchesJson "cti_alpha_2.json" = true := by
  refine ⟨?_, by decide, by decide, by decide, by decide, by decide, by decide⟩
  intro l name
  simp [AgentC.find_cti_files, List.mem_filter]

/-- Witness for C10: `report.json` is discovered from a mixed directory. -/
theorem c10_discovery_globs_all_json_witness :
    "report.json" ∈ AgentC.find_cti_files ["report.json", "notes.txt"] ↔
      "report.json" ∈ ["report.json", "notes.txt"] ∧
        AgentC.globMatchesJson "report.json" = true :=
  c10_discovery_globs_all_json.1 ["report.json", "notes.txt"] "report.json"

/-- C3: the records returned by the status projection are copies sharing no
mutable state with the registry: `list_tasks` over either registry equals
the pure filter/sort/limit pipeline applied to the by-value snapshot of the
records taken at call time, and a `get` response is the record value read at
call time — a subsequent in-place mutation of that task through its
registry reference changes what later reads observe, but the value already
returned is a pure function of the pre-mutation heap. -/
theorem c3_returned_records_are_copies :
    (∀ (heap : Proj.Ref → AgentC.Task) (storage : List Proj.Ref)
        (status : Option String) (limit : Nat),
        Proj.list_tasks (fun t => t.status.toStr) (fun t => t.created_at)
            heap storage status limit
          = Proj.list_tasks_values (fun t => t.status.toStr)
              (fun t => t.created_at) (storage.map heap) status limit) ∧
    (∀ (heap : Proj.Ref → AgentB.Task) (storage : List Proj.Ref)
        (status : Option String) (limit : Nat),
        Proj.list_tasks (fun t => t.status.toStr) (fun t => t.created_at)
            heap storage status limit
          = Proj.list_tasks_values (fun t => t.status.toStr)
              (fun t => t.created_at) (storage.map heap) status limit) ∧
    (∀ (heap : Proj.Ref → AgentC.Task) (storage : List (String × Proj.Ref))
        (id : String) (ref : Proj.Ref) (f : AgentC.Task → AgentC.Task),
        lookupTask storage id = some ref →
        Proj.get_task_status heap storage id = some (heap ref) ∧
        Proj.get_task_status (Proj.writeRef heap ref f) storage id
          = some (f (heap ref))) := by
  refine ⟨fun heap storage s l => Proj.list_tasks_eq_values _ _ heap storage s l,
    fun heap storage s l => Proj.list_tasks_eq_values _ _ heap storage s l, ?_⟩
  intro heap storage id ref f h
  constructor
  · rw [Proj.get_task_status, h]
    rfl
  · rw [Proj.get_task_status, h]
    simp [Proj.writeRef]

/-- Witness for C3: a concrete get, before and after a concurrent mutation
of the same task's record. -/
theorem c3_returned_records_are_copies_witness :
    lookupTask [("t", 0)] "t" = some 0 ∧
    Proj.get_task_status
        (fun _ => ({ task_id := "t", status := AgentC.Status.queued, created_at := 0 } : AgentC.Task))
        [("t", 0)] "t"
      = some { task_id := "t", status := AgentC.Status.queued, created_at := 0 } ∧
    Proj.get_task_status
        (Proj.writeRef
          (fun _ => ({ task_id := "t", status := AgentC.Status.queued, created_at := 0 } : AgentC.Task))
          0 (fun t => { t with status := AgentC.Status.completed }))
        [("t", 0)] "t"
      = some { task_id := "t", status := AgentC.Status.completed, created_at := 0 } := by
  refine ⟨rfl, ?_, ?_⟩
  · exact (c3_returned_records_are_copies.2.2
      (fun _ => { task_id := "t", status := AgentC.Status.queued, created_at := 0 })
      [("t", 0)] "t" 0
      (fun t => { t with status := AgentC.Status.completed }) rfl).1
  · exact (c3_returned_records_are_copies.2.2
      (fun _ => { task_id := "t", status := AgentC.Status.queued, created_at := 0 })
      [("t", 0)] "t" 0
      (fun t => { t with status := AgentC.Status.completed }) rfl).2

end CyberSage
